import Mathlib

/-!
# Verification of the ProjectBabble frame-acquisition engine

This file gives a shallow embedding, in Lean 4, of the capture code in
`BabbleApp/camera.py` (class `Camera`), and proves properties of it.

Modelling conventions:

* Bytes are `Nat`s (every reachable byte value is `< 256`); byte strings are
  `List Nat`.
* The serial connection is modelled as the list of bytes currently available
  to be read (`incoming`); `conn.read(n)` yields up to `n` of those bytes and
  `conn.in_waiting` is their count.
* Python's `bytes.find` / `bytes.rfind` are `findSub` / `rfindSub`, returning
  `Option Nat` instead of `-1`.
* The float threshold `sp_max * 2.3` is modelled exactly as the rational
  comparison `23 * sp_max < 10 * buffer_len`.
* `libscrc.rohc` is CRC-8/ROHC (poly 0x07, init 0xFF, reflected in and out,
  xorout 0), implemented bitwise over `Nat`.
* Images are abstracted in the run-loop model: only their flow through the
  loop (reads, pushes, decode success) is represented, driven by an
  environment record of the results of external calls.  Floating-point
  fps/bps bookkeeping has no effect on control flow and is omitted.
-/

namespace Babble

/-! ## List utilities: substring search (Python `find` / `rfind`) -/

/-- Boolean test that `pat` is an initial segment of `l`. -/
def startsWith {α : Type} [DecidableEq α] : List α → List α → Bool
  | [], _ => true
  | _ :: _, [] => false
  | p :: ps, x :: xs => if p = x then startsWith ps xs else false

/-- Index of the first occurrence of `pat` in `l` (Python `bytes.find`). -/
def findSub {α : Type} [DecidableEq α] (pat : List α) : List α → Option Nat
  | [] => if startsWith pat ([] : List α) then some 0 else none
  | a :: t => if startsWith pat (a :: t) then some 0 else (findSub pat t).map (· + 1)

/-- Index of the last occurrence of `pat` in `l` (Python `bytes.rfind`). -/
def rfindSub {α : Type} [DecidableEq α] (pat : List α) : List α → Option Nat
  | [] => if startsWith pat ([] : List α) then some 0 else none
  | a :: t =>
    match rfindSub pat t with
    | some i => some (i + 1)
    | none => if startsWith pat (a :: t) then some 0 else none

/-- Substring containment (Python `in` on strings / bytes). -/
def containsSub {α : Type} [DecidableEq α] (pat l : List α) : Bool :=
  (findSub pat l).isSome

/-! ## CRC-8/ROHC (`libscrc.rohc`) -/

/-- One reflected shift round of CRC-8/ROHC (reflected polynomial 0xE0). -/
def crc8Step (crc : Nat) : Nat :=
  if crc % 2 = 1 then (crc / 2) ^^^ 0xE0 else crc / 2

/-- Iterate `crc8Step`. -/
def crc8Rounds : Nat → Nat → Nat
  | 0, c => c
  | n + 1, c => crc8Rounds n (crc8Step c)

/-- CRC-8/ROHC of a byte string: poly 0x07, init 0xFF, refin, refout,
xorout 0 (`libscrc.rohc`). -/
def rohc (data : List Nat) : Nat :=
  data.foldl (fun crc b => crc8Rounds 8 (crc ^^^ b)) 0xFF

/-- The checksum byte the firmware sends: `(~rohc(payload)) & 0xFF`,
i.e. the bitwise complement of the CRC within 8 bits. -/
def crcByte (data : List Nat) : Nat := 255 ^^^ rohc data

/-! ## The serial framing protocol (`Camera.get_next_jpeg_frame`) -/

/-- Little-endian value of a byte string (Python `int.from_bytes(_, "little")`). -/
def fromLE : List Nat → Nat
  | [] => 0
  | b :: t => b + 256 * fromLE t

/-- Magic header `b"\xff\xa0\xff\xa1"` (`ETVR_HEADER`). -/
def ETVR_HEADER : List Nat := [0xff, 0xa0, 0xff, 0xa1]

/-- Length of header plus the 2-byte packet-size field (`ETVR_HEADER_LEN`). -/
def ETVR_HEADER_LEN : Nat := 6

/-- JPEG end-of-image marker `b"\xff\xd9"`. -/
def eoiMarker : List Nat := [0xff, 0xd9]

/-- The two bytes compared against `self.buffer[end-2:end]` for the
OpenIris no-CRC compatibility path: `b"\xff\xa0"`. -/
def noCrcMarker : List Nat := [0xff, 0xa0]

/-- High-water mark for the OS serial buffer (`BUFFER_SIZE`). -/
def BUFFER_SIZE : Nat := 32768

/-- The framer's mutable state: the byte accumulator `self.buffer`, the bytes
still available on the serial connection, and `self.sp_max`. -/
structure FramerState where
  buffer : List Nat
  incoming : List Nat
  sp_max : Nat
deriving DecidableEq

/-- Semantics of `Camera.serial_read(rb)`: append up to `rb` available bytes
to the accumulator. -/
def serial_read (s : FramerState) (rb : Nat) : FramerState :=
  { s with buffer := s.buffer ++ s.incoming.take rb, incoming := s.incoming.drop rb }

/-- The header search of `get_next_jpeg_frame`: `rfind` when the accumulator
has grown past `sp_max * 2.3` (skip-ahead), `find` otherwise.  The float
threshold is modelled exactly by the rational comparison. -/
def locateHeader (sp_max : Nat) (buf : List Nat) : Option Nat :=
  if 23 * sp_max < 10 * buf.length then rfindSub ETVR_HEADER buf
  else findSub ETVR_HEADER buf

/-- The expected total offset `end` of lines 217:
`int.from_bytes(buffer[4:6], "little") + ETVR_HEADER_LEN + 2`. -/
def frameEnd (buf : List Nat) : Nat :=
  fromLE ((buf.drop 4).take 2) + ETVR_HEADER_LEN + 2

/-- Lines 218-233 of `get_next_jpeg_frame`, after `end` has been computed
and any extra waiting bytes have been read: terminator check, checksum
check, extraction, and the `sp_max` update. -/
def checkFrame (s3 : FramerState) (e : Nat) : Option (List Nat) × FramerState :=
  if e ≤ s3.buffer.length ∧ (s3.buffer.drop (e - 4)).take 2 = eoiMarker then
    if ¬((s3.buffer.drop (e - 2)).take 2 = noCrcMarker) ∧
       ¬((s3.buffer.drop (e - 2)).take 1 =
          [crcByte ((s3.buffer.drop ETVR_HEADER_LEN).take (e - 2 - ETVR_HEADER_LEN))]) then
      (none, { s3 with buffer := s3.buffer.drop e })
    else
      (some ((s3.buffer.drop ETVR_HEADER_LEN).take (e - 2 - ETVR_HEADER_LEN)),
       { s3 with buffer := s3.buffer.drop (e - 2),
                 sp_max := if s3.sp_max < e then e else s3.sp_max })
  else
    (none, { s3 with sp_max := if s3.sp_max < e then e else s3.sp_max })

/-- Line 218-219: if at least `e` bytes are waiting on the connection, read
them all before checking the frame. -/
def readMore (s2 : FramerState) (e : Nat) : Option (List Nat) × FramerState :=
  checkFrame (if e ≤ s2.incoming.length then serial_read s2 s2.incoming.length else s2) e

/-- Lines 216-233: the part of `get_next_jpeg_frame` after the buffer has
been trimmed to start at the located header. -/
def framePastHeader (s2 : FramerState) : Option (List Nat) × FramerState :=
  if ETVR_HEADER_LEN ≤ s2.buffer.length then
    readMore s2 (frameEnd s2.buffer)
  else (none, s2)

/-- `Camera.get_next_jpeg_frame`: read up to 2048 new bytes, locate the magic
header, trim, and attempt to extract one frame.  `none` models the Python
`return False`. -/
def get_next_jpeg_frame (s : FramerState) : Option (List Nat) × FramerState :=
  if ETVR_HEADER_LEN ≤ (serial_read s 2048).buffer.length then
    match locateHeader s.sp_max (serial_read s 2048).buffer with
    | some beg =>
      framePastHeader
        { serial_read s 2048 with buffer := (serial_read s 2048).buffer.drop beg }
    | none => (none, serial_read s 2048)
  else (none, serial_read s 2048)

/-- The framer state after line 214 (`self.buffer = self.buffer[beg:]`):
the accumulator extended by the initial 2048-byte read and trimmed to the
located header position `beg`. -/
def trimmedState (s : FramerState) (beg : Nat) : FramerState :=
  { serial_read s 2048 with buffer := (serial_read s 2048).buffer.drop beg }

/-- The buffer `checkFrame` actually inspects for a trimmed state `s2`: the
header-trimmed accumulator, extended by a second `serial_read` when at least
`frameEnd s2.buffer` bytes are waiting on the connection (lines 218-219). -/
def checkedBuf (s2 : FramerState) : List Nat :=
  (if frameEnd s2.buffer ≤ s2.incoming.length then serial_read s2 s2.incoming.length
   else s2).buffer

/-- A concrete accumulator holding one complete valid frame followed by one
trailing byte, used to exercise the accepting path of the framer. -/
def cw2 : FramerState :=
  ⟨[255, 160, 255, 161, 4, 0, 1, 2, 255, 217, crcByte [1, 2, 255, 217], 0], [], 2560⟩

/-- Modelled from the spec: the serial wire format of the spec's external
interface table, read literally — header marker A, header marker B, a 2-byte
little-endian length counting the payload only, the payload, a separate
2-byte JPEG end-of-image marker, then one checksum byte.  Used only to test
claim C1's description of a well-formed frame against the parser. -/
def specFrame (payload : List Nat) (c : Nat) : List Nat :=
  [255, 160, 255, 161] ++ [payload.length % 256, payload.length / 256] ++
    payload ++ [255, 217] ++ [c]

/-- A wire frame as the code actually consumes it: 4-byte header, 2-byte
little-endian length covering `pre ++ [0xff, 0xd9]` (a JPEG ends with the
end-of-image marker), that many body bytes, then the checksum byte. -/
def wireFrame (pre : List Nat) (c : Nat) : List Nat :=
  [255, 160, 255, 161] ++ [(pre.length + 2) % 256, (pre.length + 2) / 256] ++
    pre ++ [255, 217, c]

/-! ## The capture run loop (`Camera.run` and the backend methods)

The run loop is modelled one iteration at a time.  External calls (port
enumeration, `serial.Serial`, `cv2.VideoCapture`, `isOpened`, `read`,
`imdecode`, the bounded event waits) are driven by a `RunEnv` record holding
the result each call would produce this iteration.  Frames are abstracted:
only their flow is tracked, through a `RunEv` event log.  Floating-point
fps/bps bookkeeping and log printing have no effect on control flow and are
omitted. -/

/-- The camera connection status enum, `CameraState`. -/
inductive CameraState
  | CONNECTING
  | CONNECTED
  | DISCONNECTED
deriving DecidableEq

/-- The value stored in `self.current_capture_source`: either the raw
configured string, or a resolved camera index (`get_camera_index_by_name`). -/
inductive SourceVal
  | str (s : List Char)
  | idx (n : Nat)
deriving DecidableEq

/-- A `serial.Serial` connection object: whether it is open, its port, and
the bytes available to read from it. -/
structure SerialConn where
  is_open : Bool
  port : List Char
  incoming : List Nat
deriving DecidableEq

/-- A `cv2.VideoCapture` object, abstracted to whether `isOpened()` holds. -/
structure Cv2Cam where
  opened : Bool
deriving DecidableEq

/-- The fields of a `Camera` object the run loop reads and writes, plus the
configuration snapshot it consults (`config.capture_source`,
`config.use_ffmpeg` and the `settings.gui_cam_*` hints). -/
structure CamSys where
  camera_status : CameraState
  capture_source : Option (List Char)
  use_ffmpeg : Bool
  gui_cam_resolution_x : Nat
  gui_cam_resolution_y : Nat
  gui_cam_framerate : Nat
  camera_list : List (List Char)
  current_capture_source : Option SourceVal
  cv2_camera : Option Cv2Cam
  serial_connection : Option SerialConn
  buffer : List Nat
  sp_max : Nat
deriving DecidableEq

/-- Results of the external calls one iteration of `run` may make. -/
structure RunEnv where
  cancel_top : Bool
  cancel_wait : Bool
  capture_req : Bool
  port_listed : Bool
  open_ok : Bool
  open_incoming : List Nat
  camera_index : Nat
  cv2_open_ok : Bool
  cv2_read_ok : Bool
  decode_ok : Bool
deriving DecidableEq

/-- Observable events of one iteration. -/
inductive RunEv
  | serialOpenCall
  | serialNew
  | cv2New
  | serialPull
  | cv2Pull
  | cv2ReadCall
  | framerCall
  | pushed
deriving DecidableEq

/-- The substring `"COM"`. -/
def comStr : List Char := ['C', 'O', 'M']

/-- The substring `"/dev/tty"`. -/
def ttyStr : List Char := ['/', 'd', 'e', 'v', '/', 't', 't', 'y']

/-- Resolution cap (`MAX_RESOLUTION`). -/
def MAX_RESOLUTION : Nat := 600

/-- Largest entry of a shape tuple (`np.max(shape)`). -/
def maxList (l : List Nat) : Nat := l.foldr max 0

/-- Fuel-driven binary logarithm: `lg2Fuel f n` is `floor (log2 n)` whenever
`n < 2 ^ f` (and `1 ≤ n`).  Structural recursion on the fuel keeps the
function kernel-reducible. -/
def lg2Fuel : Nat → Nat → Nat
  | 0, _ => 0
  | f + 1, n => if n < 2 then 0 else lg2Fuel f (n / 2) + 1

/-- Binary logarithm, exact on every argument below `2 ^ 256` — far beyond
any quantity arising from a shape tuple. -/
def lg2 (n : Nat) : Nat := lg2Fuel 256 n

/-- IEEE-754 round-half-to-even of the exact nonnegative rational `A / B`
(the default binary64 rounding), for `B > 0`. -/
def rhe (A B : Nat) : Nat :=
  if 2 * (A % B) < B then A / B
  else if B < 2 * (A % B) then A / B + 1
  else if (A / B) % 2 = 0 then A / B else A / B + 1

/-- The binary64 value of the Python expression `600 / mx` for `mx > 600`,
as a dyadic pair `(s, u)` of value `s / 2 ^ u`: `u` is chosen so the exact
quotient lies in `[2 ^ 52 / 2 ^ u, 2 ^ 53 / 2 ^ u)` and `s` is its 53-bit
round-to-nearest-even significand (renormalised if rounding carries into
the next binade). -/
def scaleFloat (mx : Nat) : Nat × Nat :=
  let l := lg2 mx
  let u := if mx * 512 ≤ 600 * 2 ^ l then 43 + l else 44 + l
  let s := rhe (600 * 2 ^ u) mx
  if s = 2 ^ 53 then (2 ^ 52, u - 1) else (s, u)

/-- The binary64 product `fl(w * s / 2 ^ u)` of an integer dimension `w`
(exact in binary64 for `w ≤ 2 ^ 53`) with the dyadic scale `(s, u)`,
again as a dyadic pair. -/
def mulFloat (w s u : Nat) : Nat × Nat :=
  if w * s = 0 then (0, 0)
  else
    let t := 52 + u - lg2 (w * s)
    let pm := rhe (w * s * 2 ^ t) (2 ^ u)
    if pm = 2 ^ 53 then (2 ^ 52, t - 1) else (pm, t)

/-- Python `int(_)` applied to a nonnegative dyadic float: truncation,
i.e. floor. -/
def floorFloat (p : Nat × Nat) : Nat := p.1 / 2 ^ p.2

/-- `Camera.clamp_max_res`, acting on the image's shape tuple
`(height, width, channels...)`.  The float scale `MAX_RESOLUTION/max_value`
and the products `int(height * scale)`, `int(width * scale)` are modelled
bit-exactly as binary64 operations: `scaleFloat` is the correctly rounded
division, `mulFloat` the correctly rounded product, and `floorFloat` the
`int(...)` truncation. -/
def clamp_max_res (shape : List Nat) : List Nat :=
  if MAX_RESOLUTION < maxList shape then
    floorFloat (mulFloat (shape.getD 0 0) (scaleFloat (maxList shape)).1
        (scaleFloat (maxList shape)).2) ::
      floorFloat (mulFloat (shape.getD 1 0) (scaleFloat (maxList shape)).1
        (scaleFloat (maxList shape)).2) :: shape.drop 2
  else shape

/-- `Camera.__del__`: close the serial connection if there is one. -/
def camDel (sys : CamSys) : CamSys :=
  match sys.serial_connection with
  | some c => { sys with serial_connection := some { c with is_open := false } }
  | none => sys

/-- Lines 267-270 of `get_serial_camera_picture`: flush the OS buffer and
the accumulator when more than `BUFFER_SIZE` bytes are queued. -/
def serialDiscard (sys : CamSys) : CamSys :=
  match sys.serial_connection with
  | some c =>
    if BUFFER_SIZE ≤ c.incoming.length then
      { sys with serial_connection := some { c with incoming := [] }, buffer := [] }
    else sys
  | none => sys

/-- The open attempt inside `start_serial_connection`, below the
already-open early return: skip if the port is not enumerated, else open;
on success set `CONNECTED`, on failure set `DISCONNECTED`. -/
def start_serial_open (sys : CamSys) (env : RunEnv) (port : List Char) :
    CamSys × List RunEv :=
  if ¬ env.port_listed then (sys, [RunEv.serialOpenCall])
  else if env.open_ok then
    ({ sys with serial_connection := some ⟨true, port, env.open_incoming⟩,
                camera_status := CameraState.CONNECTED },
     [RunEv.serialOpenCall, RunEv.serialNew])
  else
    ({ sys with camera_status := CameraState.DISCONNECTED },
     [RunEv.serialOpenCall])

/-- `Camera.start_serial_connection`. -/
def start_serial_connection (sys : CamSys) (env : RunEnv) (port : List Char) :
    CamSys × List RunEv :=
  match sys.serial_connection with
  | some c =>
    if c.is_open then
      if c.port = port then (sys, [RunEv.serialOpenCall])
      else
        start_serial_open
          { sys with serial_connection := some { c with is_open := false } } env port
    else start_serial_open sys env port
  | none => start_serial_open sys env port

/-- `Camera.get_serial_camera_picture`.  A read on a closed connection
raises, landing in the `except` handler which closes the connection and
sets `DISCONNECTED`. -/
def get_serial_camera_picture (sys : CamSys) (env : RunEnv) (should_push : Bool) :
    CamSys × List RunEv :=
  match sys.serial_connection with
  | none => (sys, [])
  | some c =>
    if sys.camera_status = CameraState.DISCONNECTED then (sys, [])
    else if ¬ c.is_open then
      ({ sys with serial_connection := some { c with is_open := false },
                  camera_status := CameraState.DISCONNECTED }, [])
    else if c.incoming.length ≠ 0 then
      let r := get_next_jpeg_frame ⟨sys.buffer, c.incoming, sys.sp_max⟩
      let sys1 := { sys with buffer := r.2.buffer, sp_max := r.2.sp_max,
                             serial_connection := some { c with incoming := r.2.incoming } }
      match r.1 with
      | some p =>
        if p ≠ [] then
          if ¬ env.decode_ok then (sys1, [RunEv.framerCall])
          else if should_push then
            (serialDiscard sys1, [RunEv.framerCall, RunEv.pushed])
          else (serialDiscard sys1, [RunEv.framerCall])
        else (serialDiscard sys1, [RunEv.framerCall])
      | none => (serialDiscard sys1, [RunEv.framerCall])
    else (sys, [])

/-- `Camera.get_cv2_camera_picture`.  A read on a missing camera object
raises; a failed read also lands in the `except` handler; both set
`DISCONNECTED`. -/
def get_cv2_camera_picture (sys : CamSys) (env : RunEnv) (should_push : Bool) :
    CamSys × List RunEv :=
  match sys.cv2_camera with
  | none => ({ sys with camera_status := CameraState.DISCONNECTED }, [])
  | some cam =>
    if cam.opened && env.cv2_read_ok then
      if should_push then (sys, [RunEv.cv2ReadCall, RunEv.pushed])
      else (sys, [RunEv.cv2ReadCall])
    else
      ({ sys with camera_status := CameraState.DISCONNECTED }, [RunEv.cv2ReadCall])

/-- Lines 161-172 of `run`: wait for a capture request (unless this
iteration established a fresh connection), route the pull to the serial or
cv2 path, and mark `CONNECTED` after a fresh connection's warm-up pull. -/
def runTail (sys : CamSys) (env : RunEnv) (should_push : Bool) (log : List RunEv) :
    Bool × CamSys × List RunEv :=
  if should_push && ! env.capture_req then (false, sys, log)
  else
    match sys.capture_source with
    | none => (false, sys, log)
    | some src =>
      if containsSub comStr src || containsSub ttyStr src then
        let r := get_serial_camera_picture sys env should_push
        let sys2 := if should_push then r.1
          else { r.1 with camera_status := CameraState.CONNECTED }
        (false, sys2, log ++ [RunEv.serialPull] ++ r.2)
      else
        let r := get_cv2_camera_picture (camDel sys) env should_push
        let sys2 := if should_push then r.1
          else { r.1 with camera_status := CameraState.CONNECTED }
        (false, sys2, log ++ [RunEv.cv2Pull] ++ r.2)

/-- The `isOpened` part of the cv2 reconnect condition:
`self.cv2_camera is None or not self.cv2_camera.isOpened()`. -/
def cv2NotOpen : Option Cv2Cam → Bool
  | none => true
  | some cam => ! cam.opened

/-- One iteration of `Camera.run`.  The first component is true when the
loop returned (cancellation); otherwise the loop continues with the new
state.  The last component is the log of observable events. -/
def runIter (sys : CamSys) (env : RunEnv) : Bool × CamSys × List RunEv :=
  if env.cancel_top then (true, sys, [])
  else
    match sys.capture_source with
    | some src =>
      if src = [] then
        if env.cancel_wait then
          (true, { sys with camera_status := CameraState.DISCONNECTED }, [])
        else runTail sys env true []
      else if containsSub comStr src then
        if sys.serial_connection = none
            ∨ sys.camera_status = CameraState.DISCONNECTED
            ∨ ¬ sys.current_capture_source = some (SourceVal.str src) then
          let r := start_serial_connection
            { sys with current_capture_source := some (SourceVal.str src) } env src
          runTail r.1 env true r.2
        else runTail sys env true []
      else
        if cv2NotOpen sys.cv2_camera = true
            ∨ sys.camera_status = CameraState.DISCONNECTED
            ∨ ¬ sys.current_capture_source = some (SourceVal.str src) then
          if env.cancel_wait then (true, sys, [])
          else
            runTail
              { sys with
                current_capture_source :=
                  some (if src ∈ sys.camera_list then SourceVal.idx env.camera_index
                        else SourceVal.str src),
                cv2_camera := some ⟨env.cv2_open_ok⟩ }
              env false [RunEv.cv2New]
        else runTail sys env true []
    | none =>
      if env.cancel_wait then
        (true, { sys with camera_status := CameraState.DISCONNECTED }, [])
      else runTail sys env true []

/-- A camera with a freshly configured `"COM3"` source and no serial
connection yet. -/
def serialFreshSys : CamSys :=
  ⟨CameraState.CONNECTING, some ['C', 'O', 'M', '3'], false, 0, 0, 0, [],
    some (SourceVal.str ['C', 'O', 'M', '3']), none, none, [], 2560⟩

/-- An iteration in which the port is listed and opens successfully but no
capture has been requested. -/
def serialFreshEnv : RunEnv :=
  ⟨false, false, false, true, true, [], 0, true, true, true⟩

/-- A camera streaming from a healthy, open cv2 source `"rtsp"` whose
configured resolution hint (`gui_cam_resolution_x = 999`) differs from
whatever the connection was opened with. -/
def resChangeSys : CamSys :=
  ⟨CameraState.CONNECTED, some ['r', 't', 's', 'p'], false, 999, 0, 0, [],
    some (SourceVal.str ['r', 't', 's', 'p']), some ⟨true⟩, none, [], 2560⟩

/-- An iteration with a capture request pending and a working camera. -/
def resChangeEnv : RunEnv :=
  ⟨false, false, true, false, false, [], 0, true, true, true⟩

/-- A camera with a freshly configured cv2 source and no camera object yet. -/
def cv2FreshSys : CamSys :=
  ⟨CameraState.CONNECTING, some ['r', 't', 's', 'p'], false, 0, 0, 0, [],
    none, none, none, [], 2560⟩

/-- A camera configured with the serial device path `"/dev/ttyACM0"`,
which contains `"/dev/tty"` but not `"COM"`. -/
def ttySys : CamSys :=
  ⟨CameraState.CONNECTING,
    some ['/', 'd', 'e', 'v', '/', 't', 't', 'y', 'A', 'C', 'M', '0'],
    false, 0, 0, 0, [],
    some (SourceVal.str ['/', 'd', 'e', 'v', '/', 't', 't', 'y', 'A', 'C', 'M', '0']),
    none, none, [], 2560⟩

/-- A camera whose configured source `"rtsp"` no longer matches the source
`"old"` its current connection was opened for. -/
def sourceChangedSys : CamSys :=
  ⟨CameraState.CONNECTED, some ['r', 't', 's', 'p'], false, 0, 0, 0, [],
    some (SourceVal.str ['o', 'l', 'd']), some ⟨true⟩, none, [], 2560⟩

/-! ## Structural lemmas about the framer -/

theorem startsWith_append {α : Type} [DecidableEq α] (pat : List α) :
    ∀ xs ys : List α, startsWith pat xs = true → startsWith pat (xs ++ ys) = true := by
  induction pat with
  | nil => intro xs ys _; rfl
  | cons p ps ih =>
    intro xs ys h
    cases xs with
    | nil => simp [startsWith] at h
    | cons x t =>
      simp only [startsWith] at h ⊢
      split at h
      · simp_all [ih t ys h]
      · exact absurd h (by simp)

theorem startsWith_self_append {α : Type} [DecidableEq α] (pat t : List α) :
    startsWith pat (pat ++ t) = true := by
  induction pat with
  | nil => rfl
  | cons p ps ih => simp [startsWith, ih]

theorem findSub_zero {α : Type} [DecidableEq α] {pat l : List α}
    (h : startsWith pat l = true) : findSub pat l = some 0 := by
  cases l <;> simp [findSub, h]

theorem findSub_startsWith {α : Type} [DecidableEq α] {pat : List α} :
    ∀ {l : List α} {i : Nat}, findSub pat l = some i →
      startsWith pat (l.drop i) = true := by
  intro l
  induction l with
  | nil =>
    intro i h
    simp only [findSub] at h
    split at h
    · cases h; simpa using ‹startsWith pat ([] : List α) = true›
    · cases h
  | cons a t ih =>
    intro i h
    simp only [findSub] at h
    split at h
    · cases h; simpa using ‹startsWith pat (a :: t) = true›
    · match hmap : findSub pat t with
      | none => rw [hmap] at h; cases h
      | some j =>
        rw [hmap] at h
        simp only [Option.map_some'] at h
        cases h
        simpa using ih hmap

theorem rfindSub_startsWith {α : Type} [DecidableEq α] {pat : List α} :
    ∀ {l : List α} {i : Nat}, rfindSub pat l = some i →
      startsWith pat (l.drop i) = true := by
  intro l
  induction l with
  | nil =>
    intro i h
    by_cases hs : startsWith pat ([] : List α) = true
    · simp only [rfindSub, if_pos hs] at h
      cases h
      simpa using hs
    · simp only [rfindSub, if_neg hs] at h
      cases h
  | cons a t ih =>
    intro i h
    cases hr : rfindSub pat t with
    | some j =>
      rw [rfindSub, hr] at h
      cases h
      simpa using ih hr
    | none =>
      rw [rfindSub, hr] at h
      by_cases hs : startsWith pat (a :: t) = true
      · rw [if_pos hs] at h
        cases h
        simpa using hs
      · rw [if_neg hs] at h
        cases h

theorem rfindSub_none {α : Type} [DecidableEq α] {pat : List α} :
    ∀ {l : List α}, (∀ i, startsWith pat (l.drop i) = false) →
      rfindSub pat l = none := by
  intro l
  induction l with
  | nil =>
    intro h
    have h0 := h 0
    simp only [List.drop] at h0
    simp [rfindSub, h0]
  | cons a t ih =>
    intro h
    have ht : ∀ i, startsWith pat (t.drop i) = false := fun i => h (i + 1)
    have h0 := h 0
    simp only [List.drop] at h0
    rw [rfindSub, ih ht, h0]
    simp

theorem rfindSub_at {α : Type} [DecidableEq α] {pat : List α} :
    ∀ {l : List α} {k : Nat}, startsWith pat (l.drop k) = true →
      (∀ i, k < i → startsWith pat (l.drop i) = false) →
      rfindSub pat l = some k := by
  intro l
  induction l with
  | nil =>
    intro k hk hgt
    exfalso
    have h1 := hgt (k + 1) (by omega)
    rw [List.drop_nil] at hk h1
    rw [hk] at h1
    cases h1
  | cons a t ih =>
    intro k hk hgt
    cases k with
    | zero =>
      have ht : ∀ i, startsWith pat (t.drop i) = false := fun i =>
        hgt (i + 1) (by omega)
      have hk0 : startsWith pat (a :: t) = true := by simpa using hk
      rw [rfindSub, rfindSub_none ht, hk0]
      simp
    | succ k' =>
      have h1 : startsWith pat (t.drop k') = true := hk
      have h2 : ∀ i, k' < i → startsWith pat (t.drop i) = false := fun i hi =>
        hgt (i + 1) (by omega)
      rw [rfindSub, ih h1 h2]

theorem serial_read_sp_max (s : FramerState) (rb : Nat) :
    (serial_read s rb).sp_max = s.sp_max := rfl

theorem serial_read_incoming (s : FramerState) (rb : Nat) :
    (serial_read s rb).incoming = s.incoming.drop rb := rfl

theorem frameEnd_append {xs : List Nat} (ys : List Nat) (h : 6 ≤ xs.length) :
    frameEnd (xs ++ ys) = frameEnd xs := by
  unfold frameEnd
  rw [List.drop_append_eq_append_drop, Nat.sub_eq_zero_of_le (by omega), List.drop_zero]
  rw [List.take_append_eq_append_take, Nat.sub_eq_zero_of_le (by simp; omega),
    List.take_zero, List.append_nil]

theorem sp_le_checkFrame (s3 : FramerState) (e : Nat) :
    s3.sp_max ≤ ((checkFrame s3 e).2).sp_max := by
  unfold checkFrame
  split
  · split
    · simp
    · simp only
      split <;> omega
  · simp only
    split <;> omega

theorem sp_le_framePastHeader (s2 : FramerState) :
    s2.sp_max ≤ ((framePastHeader s2).2).sp_max := by
  unfold framePastHeader readMore
  split
  · split
    · have := sp_le_checkFrame (serial_read s2 s2.incoming.length) (frameEnd s2.buffer)
      rwa [serial_read_sp_max] at this
    · exact sp_le_checkFrame _ _
  · exact Nat.le_refl _

theorem locateHeader_some {sp beg : Nat} {buf : List Nat}
    (h : locateHeader sp buf = some beg) :
    startsWith ETVR_HEADER (buf.drop beg) = true := by
  unfold locateHeader at h
  split at h
  · exact rfindSub_startsWith h
  · exact findSub_startsWith h

theorem checkFrame_some {s3 : FramerState} {e : Nat} {p : List Nat}
    (h : (checkFrame s3 e).1 = some p) :
    e ≤ s3.buffer.length ∧ (s3.buffer.drop (e - 4)).take 2 = eoiMarker ∧
      p = (s3.buffer.drop ETVR_HEADER_LEN).take (e - 2 - ETVR_HEADER_LEN) ∧
      (checkFrame s3 e).2.buffer = s3.buffer.drop (e - 2) := by
  by_cases hc1 : e ≤ s3.buffer.length ∧ (s3.buffer.drop (e - 4)).take 2 = eoiMarker
  · by_cases hc2 : ¬((s3.buffer.drop (e - 2)).take 2 = noCrcMarker) ∧
        ¬((s3.buffer.drop (e - 2)).take 1 =
          [crcByte ((s3.buffer.drop ETVR_HEADER_LEN).take (e - 2 - ETVR_HEADER_LEN))])
    · have hres : (checkFrame s3 e).1 = none := by
        rw [checkFrame, if_pos hc1, if_pos hc2]
      rw [hres] at h
      cases h
    · have hres : checkFrame s3 e =
          (some ((s3.buffer.drop ETVR_HEADER_LEN).take (e - 2 - ETVR_HEADER_LEN)),
           { s3 with buffer := s3.buffer.drop (e - 2),
                     sp_max := if s3.sp_max < e then e else s3.sp_max }) := by
        rw [checkFrame, if_pos hc1, if_neg hc2]
      rw [hres] at h ⊢
      exact ⟨hc1.1, hc1.2, (Option.some.inj h).symm, rfl⟩
  · have hres : (checkFrame s3 e).1 = none := by
      rw [checkFrame, if_neg hc1]
    rw [hres] at h
    cases h

theorem framePastHeader_some {s2 : FramerState} {p : List Nat}
    (hpre : startsWith ETVR_HEADER s2.buffer = true)
    (h : (framePastHeader s2).1 = some p) :
    startsWith ETVR_HEADER (checkedBuf s2) = true ∧
      ((checkedBuf s2).drop (frameEnd (checkedBuf s2) - 4)).take 2 = eoiMarker ∧
      p = ((checkedBuf s2).drop ETVR_HEADER_LEN).take
        (frameEnd (checkedBuf s2) - 2 - ETVR_HEADER_LEN) ∧
      (framePastHeader s2).2.buffer
        = (checkedBuf s2).drop (frameEnd (checkedBuf s2) - 2) := by
  by_cases hlen : ETVR_HEADER_LEN ≤ s2.buffer.length
  case neg =>
    have hres : (framePastHeader s2).1 = none := by
      rw [framePastHeader, if_neg hlen]
    rw [hres] at h
    cases h
  case pos =>
  have hres : framePastHeader s2 = readMore s2 (frameEnd s2.buffer) := by
    rw [framePastHeader, if_pos hlen]
  have hfe : frameEnd (checkedBuf s2) = frameEnd s2.buffer := by
    rw [checkedBuf]
    split
    · exact frameEnd_append _ (by exact_mod_cast hlen)
    · rfl
  have hsw : startsWith ETVR_HEADER (checkedBuf s2) = true := by
    rw [checkedBuf]
    split
    · exact startsWith_append _ _ _ hpre
    · exact hpre
  rw [hres] at h ⊢
  rw [readMore] at h ⊢
  have hfacts := checkFrame_some h
  rw [hfe]
  exact ⟨hsw, hfacts.2.1, hfacts.2.2.1, hfacts.2.2.2⟩

/-! ## Evaluation of the framer on a canonically framed buffer

A buffer of the form `header ++ [l0, l1] ++ pre ++ [0xff, 0xd9] ++ c :: r :: rest`
with `l0 + 256*l1 = pre.length + 2` is exactly a wire frame as the code
parses it: the length field covers `pre ++ [0xff, 0xd9]` (a JPEG whose last
two bytes are the end-of-image marker), `c` is the checksum slot and `r` is
the first byte past the frame. -/

theorem checkFrame_canonical (sp : Nat) (pre rest : List Nat) (l0 l1 c r : Nat) :
    checkFrame ⟨255 :: 160 :: 255 :: 161 :: l0 :: l1 ::
        (pre ++ 255 :: 217 :: c :: r :: rest), [], sp⟩ (pre.length + 10) =
      if ¬(c = 255 ∧ r = 160) ∧ ¬(c = crcByte (pre ++ [255, 217])) then
        (none, ⟨rest, [], sp⟩)
      else
        (some (pre ++ [255, 217]),
         ⟨c :: r :: rest, [],
          if sp < pre.length + 10 then pre.length + 10 else sp⟩) := by
  have hassoc1 : 255 :: 160 :: 255 :: 161 :: l0 :: l1 ::
      (pre ++ 255 :: 217 :: c :: r :: rest)
      = ([255, 160, 255, 161, l0, l1] ++ pre) ++ (255 :: 217 :: c :: r :: rest) := by
    simp
  have hassoc2 : 255 :: 160 :: 255 :: 161 :: l0 :: l1 ::
      (pre ++ 255 :: 217 :: c :: r :: rest)
      = ([255, 160, 255, 161, l0, l1] ++ pre ++ [255, 217]) ++ (c :: r :: rest) := by
    simp
  have hassoc3 : 255 :: 160 :: 255 :: 161 :: l0 :: l1 ::
      (pre ++ 255 :: 217 :: c :: r :: rest)
      = ([255, 160, 255, 161, l0, l1] ++ pre ++ [255, 217, c, r]) ++ rest := by
    simp
  have hd1 : (255 :: 160 :: 255 :: 161 :: l0 :: l1 ::
      (pre ++ 255 :: 217 :: c :: r :: rest)).drop (pre.length + 6)
      = 255 :: 217 :: c :: r :: rest := by
    rw [hassoc1]
    exact List.drop_left' (by simp <;> omega)
  have hd2 : (255 :: 160 :: 255 :: 161 :: l0 :: l1 ::
      (pre ++ 255 :: 217 :: c :: r :: rest)).drop (pre.length + 8)
      = c :: r :: rest := by
    rw [hassoc2]
    exact List.drop_left' (by simp <;> omega)
  have hd3 : (255 :: 160 :: 255 :: 161 :: l0 :: l1 ::
      (pre ++ 255 :: 217 :: c :: r :: rest)).drop (pre.length + 10)
      = rest := by
    rw [hassoc3]
    exact List.drop_left' (by simp <;> omega)
  have htake : (pre ++ 255 :: 217 :: c :: r :: rest).take (pre.length + 2)
      = pre ++ [255, 217] := by
    have h : pre ++ 255 :: 217 :: c :: r :: rest
        = (pre ++ [255, 217]) ++ (c :: r :: rest) := by simp
    rw [h]
    exact List.take_left' (by simp <;> omega)
  have hlen : (255 :: 160 :: 255 :: 161 :: l0 :: l1 ::
      (pre ++ 255 :: 217 :: c :: r :: rest)).length
      = pre.length + 10 + rest.length := by
    simp <;> omega
  have htk2 : (c :: r :: rest).take 2 = [c, r] := rfl
  have htk1 : (c :: r :: rest).take 1 = [c] := rfl
  have heoi : (255 :: 217 :: c :: r :: rest).take 2 = [255, 217] := rfl
  have hdrop6 : (255 :: 160 :: 255 :: 161 :: l0 :: l1 ::
      (pre ++ 255 :: 217 :: c :: r :: rest)).drop 6
      = pre ++ 255 :: 217 :: c :: r :: rest := rfl
  rw [checkFrame]
  dsimp only
  rw [show pre.length + 10 - 4 = pre.length + 6 from by omega]
  rw [show pre.length + 10 - 2 = pre.length + 8 from by omega]
  simp only [ETVR_HEADER_LEN]
  rw [show pre.length + 8 - 6 = pre.length + 2 from by omega]
  rw [hd1, hd2, hd3, hdrop6, htake, htk2, htk1, heoi]
  rw [if_pos (⟨by rw [hlen]; omega, rfl⟩ :
    pre.length + 10 ≤ _ ∧ ([255, 217] : List Nat) = eoiMarker)]
  by_cases hs : c = 255 ∧ r = 160
  · rw [if_neg (show ¬(¬([c, r] = noCrcMarker) ∧ _) from fun hcon =>
      hcon.1 (by simp [noCrcMarker, hs.1, hs.2]))]
    rw [if_neg (show ¬(¬(c = 255 ∧ r = 160) ∧ _) from fun hcon => hcon.1 hs)]
  · by_cases hc : c = crcByte (pre ++ [255, 217])
    · rw [if_neg (show ¬(_ ∧ ¬(([c] : List Nat) = _)) from fun hcon =>
        hcon.2 (by simp [hc]))]
      rw [if_neg (show ¬(_ ∧ ¬(c = _)) from fun hcon => hcon.2 hc)]
    · rw [if_pos (⟨fun heq => hs (by simpa [noCrcMarker] using heq),
        fun heq => hc (by simpa using heq)⟩ :
        ¬(([c, r] : List Nat) = noCrcMarker) ∧ ¬(([c] : List Nat) = _))]
      rw [if_pos ⟨hs, hc⟩]

theorem framePastHeader_canonical (sp : Nat) (pre rest : List Nat) (l0 l1 c r : Nat)
    (hL : l0 + 256 * l1 = pre.length + 2) :
    framePastHeader ⟨255 :: 160 :: 255 :: 161 :: l0 :: l1 ::
        (pre ++ 255 :: 217 :: c :: r :: rest), [], sp⟩ =
      if ¬(c = 255 ∧ r = 160) ∧ ¬(c = crcByte (pre ++ [255, 217])) then
        (none, ⟨rest, [], sp⟩)
      else
        (some (pre ++ [255, 217]),
         ⟨c :: r :: rest, [],
          if sp < pre.length + 10 then pre.length + 10 else sp⟩) := by
  have he : frameEnd (255 :: 160 :: 255 :: 161 :: l0 :: l1 ::
      (pre ++ 255 :: 217 :: c :: r :: rest)) = pre.length + 10 := by
    show fromLE [l0, l1] + ETVR_HEADER_LEN + 2 = pre.length + 10
    simp only [fromLE, ETVR_HEADER_LEN]
    omega
  rw [framePastHeader]
  rw [if_pos (by
    show ETVR_HEADER_LEN ≤ _
    simp only [ETVR_HEADER_LEN, List.length_cons]
    omega)]
  rw [readMore]
  rw [if_neg (by
    show ¬ _ ≤ _
    simp only [List.length_nil]
    omega)]
  simp only [he]
  exact checkFrame_canonical sp pre rest l0 l1 c r

/-- Uniqueness of the header occurrence forces both `find` and `rfind` to
locate position 0. -/
theorem locateHeader_unique_zero (sp : Nat) (buf : List Nat)
    (h0 : startsWith ETVR_HEADER buf = true)
    (huniq : ∀ i, i < buf.length → 0 < i →
      startsWith ETVR_HEADER (buf.drop i) = false) :
    locateHeader sp buf = some 0 := by
  have hb : ∀ i, 0 < i → startsWith ETVR_HEADER (buf.drop i) = false := by
    intro i hi
    by_cases hlt : i < buf.length
    · exact huniq i hlt hi
    · rw [List.drop_eq_nil_of_le (by omega)]
      rfl
  rw [locateHeader]
  split
  · exact rfindSub_at (by simpa using h0) (fun i hi => hb i hi)
  · exact findSub_zero h0

/-- With an empty connection, `serial_read` leaves the state unchanged. -/
theorem serial_read_empty (s : FramerState) (rb : Nat) (hin : s.incoming = []) :
    serial_read s rb = ⟨s.buffer, [], s.sp_max⟩ := by
  simp [serial_read, hin]

/-- Full evaluation of `get_next_jpeg_frame` on an accumulator holding one
canonically framed packet (the header occurring only at position 0), with no
further bytes waiting. -/
theorem get_canonical (s : FramerState) (pre rest : List Nat) (l0 l1 c r : Nat)
    (hin : s.incoming = [])
    (hbuf : s.buffer = 255 :: 160 :: 255 :: 161 :: l0 :: l1 ::
      (pre ++ 255 :: 217 :: c :: r :: rest))
    (hL : l0 + 256 * l1 = pre.length + 2)
    (huniq : ∀ i, i < s.buffer.length → 0 < i →
      startsWith ETVR_HEADER (s.buffer.drop i) = false) :
    get_next_jpeg_frame s =
      if ¬(c = 255 ∧ r = 160) ∧ ¬(c = crcByte (pre ++ [255, 217])) then
        (none, ⟨rest, [], s.sp_max⟩)
      else
        (some (pre ++ [255, 217]),
         ⟨c :: r :: rest, [],
          if s.sp_max < pre.length + 10 then pre.length + 10 else s.sp_max⟩) := by
  have h0 : startsWith ETVR_HEADER s.buffer = true := by
    rw [hbuf]; rfl
  rw [get_next_jpeg_frame, serial_read_empty s 2048 hin]
  dsimp only
  rw [if_pos (show ETVR_HEADER_LEN ≤ s.buffer.length by
    rw [hbuf]; simp [ETVR_HEADER_LEN] <;> omega)]
  rw [locateHeader_unique_zero s.sp_max s.buffer h0 huniq]
  show framePastHeader ⟨s.buffer.drop 0, [], s.sp_max⟩ = _
  rw [List.drop_zero, hbuf]
  exact framePastHeader_canonical s.sp_max pre rest l0 l1 c r hL

/-- C2: whenever `get_next_jpeg_frame` returns a payload, the header search
on the freshly extended accumulator succeeded at some position `beg`, and in
the buffer the frame check then inspected — the accumulator trimmed to
`beg`, extended by the second read, i.e. `checkedBuf (trimmedState s beg)` —
the bytes start with the 4-byte magic header `ETVR_HEADER`, the two bytes
just before position `end` (computed from the little-endian length field as
`frameEnd`) are the JPEG end-of-image marker `\xff\xd9`, the payload is
exactly the bytes of that buffer between the 6-byte header and the
terminator position, and the state the call returns keeps exactly that
buffer from offset `end - 2` on.  The framer never yields a frame lacking
a valid header and a length-consistent terminator. -/
theorem frame_safety (s : FramerState) (p : List Nat)
    (h : (get_next_jpeg_frame s).1 = some p) :
    ∃ beg : Nat,
      locateHeader s.sp_max (serial_read s 2048).buffer = some beg ∧
      startsWith ETVR_HEADER (checkedBuf (trimmedState s beg)) = true ∧
      ((checkedBuf (trimmedState s beg)).drop
          (frameEnd (checkedBuf (trimmedState s beg)) - 4)).take 2 = eoiMarker ∧
      p = ((checkedBuf (trimmedState s beg)).drop ETVR_HEADER_LEN).take
        (frameEnd (checkedBuf (trimmedState s beg)) - 2 - ETVR_HEADER_LEN) ∧
      (get_next_jpeg_frame s).2.buffer
        = (checkedBuf (trimmedState s beg)).drop
            (frameEnd (checkedBuf (trimmedState s beg)) - 2) := by
  by_cases hlen : ETVR_HEADER_LEN ≤ (serial_read s 2048).buffer.length
  case neg =>
    have hres : (get_next_jpeg_frame s).1 = none := by
      rw [get_next_jpeg_frame, if_neg hlen]
    rw [hres] at h
    cases h
  case pos =>
  cases hloc : locateHeader s.sp_max (serial_read s 2048).buffer with
  | none =>
    have hres : (get_next_jpeg_frame s).1 = none := by
      rw [get_next_jpeg_frame, if_pos hlen, hloc]
    rw [hres] at h
    cases h
  | some beg =>
    have hres : get_next_jpeg_frame s = framePastHeader (trimmedState s beg) := by
      rw [get_next_jpeg_frame, if_pos hlen, hloc]
      rfl
    rw [hres] at h
    have hpre : startsWith ETVR_HEADER (trimmedState s beg).buffer = true :=
      locateHeader_some hloc
    obtain ⟨h1, h2, h3, h4⟩ := framePastHeader_some hpre h
    exact ⟨beg, rfl, h1, h2, h3, by rw [hres]; exact h4⟩

/-- C2 witness: a concrete accepting state. -/
theorem frame_safety_witness :
    (get_next_jpeg_frame cw2).1 = some [1, 2, 255, 217] ∧
    ∃ beg : Nat,
      locateHeader cw2.sp_max (serial_read cw2 2048).buffer = some beg ∧
      startsWith ETVR_HEADER (checkedBuf (trimmedState cw2 beg)) = true ∧
      ((checkedBuf (trimmedState cw2 beg)).drop
          (frameEnd (checkedBuf (trimmedState cw2 beg)) - 4)).take 2 = eoiMarker ∧
      [1, 2, 255, 217] = ((checkedBuf (trimmedState cw2 beg)).drop ETVR_HEADER_LEN).take
        (frameEnd (checkedBuf (trimmedState cw2 beg)) - 2 - ETVR_HEADER_LEN) ∧
      (get_next_jpeg_frame cw2).2.buffer
        = (checkedBuf (trimmedState cw2 beg)).drop
            (frameEnd (checkedBuf (trimmedState cw2 beg)) - 2) :=
  ⟨by decide, frame_safety cw2 [1, 2, 255, 217] (by decide)⟩

/-- C6: `sp_max` never decreases across a call to `get_next_jpeg_frame`; and
on the path where a header was located but fewer bytes than the computed
frame end are buffered (and no further bytes are waiting), the call returns
no payload yet still raises `sp_max` to the computed frame end. -/
theorem sp_max_monotone (s : FramerState) :
    s.sp_max ≤ (get_next_jpeg_frame s).2.sp_max ∧
    (∀ beg : Nat,
      ETVR_HEADER_LEN ≤ (serial_read s 2048).buffer.length →
      locateHeader s.sp_max (serial_read s 2048).buffer = some beg →
      ETVR_HEADER_LEN ≤ ((serial_read s 2048).buffer.drop beg).length →
      (serial_read s 2048).incoming.length <
        frameEnd ((serial_read s 2048).buffer.drop beg) →
      ((serial_read s 2048).buffer.drop beg).length <
        frameEnd ((serial_read s 2048).buffer.drop beg) →
      (get_next_jpeg_frame s).1 = none ∧
      (get_next_jpeg_frame s).2.sp_max =
        max s.sp_max (frameEnd ((serial_read s 2048).buffer.drop beg))) := by
  constructor
  · rw [get_next_jpeg_frame]
    split
    · cases hloc : locateHeader s.sp_max (serial_read s 2048).buffer with
      | none => exact Nat.le_refl _
      | some beg =>
        have h := sp_le_framePastHeader
          { serial_read s 2048 with buffer := (serial_read s 2048).buffer.drop beg }
        exact h
    · exact Nat.le_refl _
  · intro beg h1 h2 h3 h4 h5
    have hres : get_next_jpeg_frame s =
        (none, { serial_read s 2048 with
                  buffer := (serial_read s 2048).buffer.drop beg,
                  sp_max := if s.sp_max < frameEnd ((serial_read s 2048).buffer.drop beg)
                    then frameEnd ((serial_read s 2048).buffer.drop beg) else s.sp_max }) := by
      rw [get_next_jpeg_frame, if_pos h1, h2]
      show framePastHeader
        { serial_read s 2048 with buffer := (serial_read s 2048).buffer.drop beg } = _
      rw [framePastHeader]
      rw [if_pos (show ETVR_HEADER_LEN ≤ _ by exact h3)]
      rw [readMore, if_neg (show ¬ _ ≤ _ by dsimp only; omega)]
      rw [checkFrame, if_neg (show ¬ (_ ∧ _) by dsimp only; intro hc; omega)]
      rfl
    rw [hres]
    refine ⟨rfl, ?_⟩
    simp only
    split <;> omega

/-- C6 witness: a state with a header and length field but an incomplete
frame; one call returns no payload and raises `sp_max` from 0 to 58. -/
theorem sp_max_monotone_witness :
    (0 ≤ (get_next_jpeg_frame ⟨[255, 160, 255, 161, 50, 0, 1, 2, 3], [], 0⟩).2.sp_max) ∧
    ((get_next_jpeg_frame ⟨[255, 160, 255, 161, 50, 0, 1, 2, 3], [], 0⟩).1 = none ∧
      (get_next_jpeg_frame ⟨[255, 160, 255, 161, 50, 0, 1, 2, 3], [], 0⟩).2.sp_max =
        max 0 (frameEnd ((serial_read ⟨[255, 160, 255, 161, 50, 0, 1, 2, 3], [], 0⟩
          2048).buffer.drop 0))) :=
  ⟨(sp_max_monotone ⟨[255, 160, 255, 161, 50, 0, 1, 2, 3], [], 0⟩).1,
   (sp_max_monotone ⟨[255, 160, 255, 161, 50, 0, 1, 2, 3], [], 0⟩).2 0
     (by decide) (by decide) (by decide) (by decide) (by decide)⟩

/-! ## C1: one complete frame plus trailing noise -/

/-- C1 counterexample: an accumulator holding exactly one frame that is
well-formed in the claim's own layout — 4-byte header, 2-byte little-endian
payload length, payload (a JPEG, so its last two bytes are the end-of-image
marker), a separate 2-byte JPEG end-of-image marker, a valid ROHC checksum
byte — followed by six bytes of trailing noise.  The claim says one call
returns the payload `[255, 217]` and leaves exactly the six noise bytes
buffered; the code instead returns no payload at all (it reads the separate
end-of-image bytes as the checksum slot and fails the CRC check) and leaves
seven bytes (the real checksum byte plus the noise). -/
theorem spec_layout_frame_rejected :
    (get_next_jpeg_frame ⟨specFrame [255, 217] (crcByte [255, 217]) ++ [9, 9, 9, 9, 9, 9],
        [], 2560⟩).1 = none ∧
    (get_next_jpeg_frame ⟨specFrame [255, 217] (crcByte [255, 217]) ++ [9, 9, 9, 9, 9, 9],
        [], 2560⟩).2.buffer = crcByte [255, 217] :: [9, 9, 9, 9, 9, 9] := by
  refine ⟨?_, ?_⟩ <;> decide

/-- C1 (amended): for every accumulator holding exactly one complete frame
as the code actually parses it — 4-byte header, 2-byte little-endian length
field equal to the payload length, the payload `pre ++ [255, 217]` (whose
final two bytes are the JPEG end-of-image marker), then the checksum byte —
followed by at least one byte of trailing noise, with a valid checksum and
the header occurring nowhere past position 0, one call returns exactly that
payload, and the accumulator is trimmed to start AT the checksum byte (the
checksum byte and the trailing noise remain), i.e. to offset `end - 2`, not
just past the frame's end; `sp_max` rises to the `end` offset if larger. -/
theorem one_frame_extraction (s : FramerState) (pre noise : List Nat) (l0 l1 c r : Nat)
    (hin : s.incoming = [])
    (hbuf : s.buffer = 255 :: 160 :: 255 :: 161 :: l0 :: l1 ::
      (pre ++ 255 :: 217 :: c :: r :: noise))
    (hL : l0 + 256 * l1 = pre.length + 2)
    (hc : c = crcByte (pre ++ [255, 217]))
    (huniq : ∀ i, i < s.buffer.length → 0 < i →
      startsWith ETVR_HEADER (s.buffer.drop i) = false) :
    (get_next_jpeg_frame s).1 = some (pre ++ [255, 217]) ∧
    (get_next_jpeg_frame s).2.buffer = c :: r :: noise ∧
    (get_next_jpeg_frame s).2.sp_max = max s.sp_max (pre.length + 10) := by
  have h := get_canonical s pre noise l0 l1 c r hin hbuf hL huniq
  rw [if_neg (show ¬(_ ∧ ¬(c = _)) from fun hcon => hcon.2 hc)] at h
  rw [h]
  refine ⟨rfl, rfl, ?_⟩
  dsimp only
  split <;> omega

/-- C1 witness: a concrete one-frame accumulator with five noise bytes. -/
theorem one_frame_extraction_witness :
    (get_next_jpeg_frame ⟨255 :: 160 :: 255 :: 161 :: 4 :: 0 ::
        ([1, 2] ++ 255 :: 217 :: crcByte [1, 2, 255, 217] :: 9 :: [9, 9, 9, 9, 9]),
        [], 2560⟩).1 = some ([1, 2] ++ [255, 217]) ∧
    (get_next_jpeg_frame ⟨255 :: 160 :: 255 :: 161 :: 4 :: 0 ::
        ([1, 2] ++ 255 :: 217 :: crcByte [1, 2, 255, 217] :: 9 :: [9, 9, 9, 9, 9]),
        [], 2560⟩).2.buffer = crcByte [1, 2, 255, 217] :: 9 :: [9, 9, 9, 9, 9] ∧
    (get_next_jpeg_frame ⟨255 :: 160 :: 255 :: 161 :: 4 :: 0 ::
        ([1, 2] ++ 255 :: 217 :: crcByte [1, 2, 255, 217] :: 9 :: [9, 9, 9, 9, 9]),
        [], 2560⟩).2.sp_max = max 2560 14 :=
  one_frame_extraction _ [1, 2] [9, 9, 9, 9, 9] 4 0 (crcByte [1, 2, 255, 217]) 9
    rfl rfl (by decide) rfl (by decide)

/-! ## C3: checksum mismatch -/

/-- `serialDiscard` never changes the reported camera status. -/
theorem serialDiscard_camera_status (sys : CamSys) :
    (serialDiscard sys).camera_status = sys.camera_status := by
  rw [serialDiscard]
  cases sys.serial_connection with
  | none => rfl
  | some c =>
    dsimp only
    split <;> rfl

/-- A serial pull on an open connection with a non-`DISCONNECTED` status
never changes `camera_status`, whatever the framer returns. -/
theorem get_serial_keeps_status (sys : CamSys) (env : RunEnv) (sp : Bool)
    (cn : SerialConn) (hconn : sys.serial_connection = some cn)
    (hopen : cn.is_open = true)
    (hstat : sys.camera_status ≠ CameraState.DISCONNECTED) :
    (get_serial_camera_picture sys env sp).1.camera_status = sys.camera_status := by
  rw [get_serial_camera_picture, hconn]
  dsimp only
  rw [if_neg hstat, if_neg (by rw [hopen]; simp)]
  split
  · split
    · split
      · split
        · rfl
        · split
          · rw [serialDiscard_camera_status]
          · rw [serialDiscard_camera_status]
      · rw [serialDiscard_camera_status]
    · rw [serialDiscard_camera_status]
  · rfl

/-- C3: for every buffered frame whose checksum slot is not the no-checksum
sentinel, if the checksum byte does not equal the ROHC CRC of the payload
(inverted, low byte), then `get_next_jpeg_frame` returns no payload and
drops the accumulator contents through the frame's computed `end` offset,
leaving exactly the bytes past `end`; `sp_max` is unchanged, and (final
conjunct) a serial pull on an open connection never changes `camera_status`
— the rejection is treated as "no frame yet", not as an error. -/
theorem checksum_mismatch_rejects (s : FramerState) (pre noise : List Nat)
    (l0 l1 c r : Nat)
    (hin : s.incoming = [])
    (hbuf : s.buffer = 255 :: 160 :: 255 :: 161 :: l0 :: l1 ::
      (pre ++ 255 :: 217 :: c :: r :: noise))
    (hL : l0 + 256 * l1 = pre.length + 2)
    (huniq : ∀ i, i < s.buffer.length → 0 < i →
      startsWith ETVR_HEADER (s.buffer.drop i) = false)
    (hsent : ¬(c = 255 ∧ r = 160))
    (hcrc : ¬ c = crcByte (pre ++ [255, 217])) :
    (get_next_jpeg_frame s).1 = none ∧
    (get_next_jpeg_frame s).2.buffer = noise ∧
    (get_next_jpeg_frame s).2.sp_max = s.sp_max ∧
    (∀ (sys : CamSys) (env : RunEnv) (sp : Bool) (cn : SerialConn),
      sys.serial_connection = some cn → cn.is_open = true →
      sys.camera_status ≠ CameraState.DISCONNECTED →
      (get_serial_camera_picture sys env sp).1.camera_status = sys.camera_status) := by
  have h := get_canonical s pre noise l0 l1 c r hin hbuf hL huniq
  rw [if_pos ⟨hsent, hcrc⟩] at h
  rw [h]
  exact ⟨rfl, rfl, rfl, get_serial_keeps_status⟩

/-- C3 witness: a concrete frame with checksum byte 0 in place of the valid
checksum, rejected and discarded through `end`; and a concrete serial pull
that keeps `camera_status`. -/
theorem checksum_mismatch_rejects_witness :
    (get_next_jpeg_frame ⟨255 :: 160 :: 255 :: 161 :: 4 :: 0 ::
        ([1, 2] ++ 255 :: 217 :: 0 :: 9 :: [9, 9]), [], 2560⟩).1 = none ∧
    (get_next_jpeg_frame ⟨255 :: 160 :: 255 :: 161 :: 4 :: 0 ::
        ([1, 2] ++ 255 :: 217 :: 0 :: 9 :: [9, 9]), [], 2560⟩).2.buffer = [9, 9] ∧
    (get_next_jpeg_frame ⟨255 :: 160 :: 255 :: 161 :: 4 :: 0 ::
        ([1, 2] ++ 255 :: 217 :: 0 :: 9 :: [9, 9]), [], 2560⟩).2.sp_max = 2560 ∧
    (get_serial_camera_picture
        ⟨CameraState.CONNECTED, none, false, 0, 0, 0, [], none, none,
          some ⟨true, comStr, []⟩, [], 2560⟩
        ⟨false, false, false, false, false, [], 0, false, false, false⟩
        true).1.camera_status = CameraState.CONNECTED := by
  have h := checksum_mismatch_rejects
    ⟨255 :: 160 :: 255 :: 161 :: 4 :: 0 :: ([1, 2] ++ 255 :: 217 :: 0 :: 9 :: [9, 9]),
      [], 2560⟩ [1, 2] [9, 9] 4 0 0 9 rfl rfl (by decide) (by decide)
    (by decide) (by decide)
  exact ⟨h.1, h.2.1, h.2.2.1,
    h.2.2.2 ⟨CameraState.CONNECTED, none, false, 0, 0, 0, [], none, none,
        some ⟨true, comStr, []⟩, [], 2560⟩
      ⟨false, false, false, false, false, [], 0, false, false, false⟩
      true ⟨true, comStr, []⟩ rfl rfl (by decide)⟩

/-! ## C4: the no-checksum sentinel -/

/-- C4 counterexample: a frame whose checksum slot holds the header's
SECOND magic pair `\xff\xa1` (marker B), which the claim says signals "no
checksum, accept the frame".  The code instead only skips validation for
`\xff\xa0` (marker A), so it validates this slot as a CRC, fails, rejects
the frame, and discards through `end` — where the claim predicted the
payload `[1, 2, 255, 217]` would be returned. -/
theorem sentinel_is_marker_a_not_b :
    (get_next_jpeg_frame
        ⟨[255, 160, 255, 161, 4, 0, 1, 2, 255, 217, 255, 161], [], 2560⟩).1 = none ∧
    (get_next_jpeg_frame
        ⟨[255, 160, 255, 161, 4, 0, 1, 2, 255, 217, 255, 161], [], 2560⟩).2.buffer = [] := by
  refine ⟨?_, ?_⟩ <;> decide

/-- C4 (amended): checksum validation is skipped (and the frame accepted on
header and terminator alone) exactly when the two bytes starting at the
checksum slot equal the header's FIRST 2-byte magic `\xff\xa0`
(header-marker-A, `noCrcMarker`), i.e. the checksum byte is `0xff` and the
byte after the frame is `0xa0`; with any other slot contents, the slot byte
is validated as the ROHC CRC: a matching byte accepts the frame and a
mismatch rejects it. -/
theorem sentinel_characterization (s : FramerState) (pre noise : List Nat)
    (l0 l1 c r : Nat)
    (hin : s.incoming = [])
    (hbuf : s.buffer = 255 :: 160 :: 255 :: 161 :: l0 :: l1 ::
      (pre ++ 255 :: 217 :: c :: r :: noise))
    (hL : l0 + 256 * l1 = pre.length + 2)
    (huniq : ∀ i, i < s.buffer.length → 0 < i →
      startsWith ETVR_HEADER (s.buffer.drop i) = false) :
    ((c = 255 ∧ r = 160) → (get_next_jpeg_frame s).1 = some (pre ++ [255, 217])) ∧
    (¬(c = 255 ∧ r = 160) → c = crcByte (pre ++ [255, 217]) →
      (get_next_jpeg_frame s).1 = some (pre ++ [255, 217])) ∧
    (¬(c = 255 ∧ r = 160) → ¬ c = crcByte (pre ++ [255, 217]) →
      (get_next_jpeg_frame s).1 = none) := by
  have h := get_canonical s pre noise l0 l1 c r hin hbuf hL huniq
  refine ⟨fun hs => ?_, fun hs hcrc => ?_, fun hs hcrc => ?_⟩
  · rw [if_neg (show ¬(¬(c = 255 ∧ r = 160) ∧ _) from fun hcon => hcon.1 hs)] at h
    rw [h]
  · rw [if_neg (show ¬(_ ∧ ¬(c = _)) from fun hcon => hcon.2 hcrc)] at h
    rw [h]
  · rw [if_pos ⟨hs, hcrc⟩] at h
    rw [h]

/-- C4 witness: a frame whose slot bytes are `\xff\xa0` and whose checksum
byte `0xff` is NOT the valid CRC of the payload, yet the frame is
accepted — validation was skipped on the marker-A sentinel. -/
theorem sentinel_characterization_witness :
    ¬((255 : Nat) = crcByte ([1, 2] ++ [255, 217])) ∧
    (get_next_jpeg_frame ⟨255 :: 160 :: 255 :: 161 :: 4 :: 0 ::
        ([1, 2] ++ 255 :: 217 :: 255 :: 160 :: []), [], 2560⟩).1
      = some ([1, 2] ++ [255, 217]) :=
  ⟨by decide,
   (sentinel_characterization
      ⟨255 :: 160 :: 255 :: 161 :: 4 :: 0 :: ([1, 2] ++ 255 :: 217 :: 255 :: 160 :: []),
        [], 2560⟩ [1, 2] [] 4 0 255 160 rfl rfl (by decide) (by decide)).1
     ⟨rfl, rfl⟩⟩

/-! ## C5: skip-ahead under backlog -/

/-- When the header occurs exactly at positions 0 and `k`, `rfind` locates
`k` and `find` locates 0, so `locateHeader` returns `k` above the backlog
threshold and 0 below it. -/
theorem locateHeader_pair (sp k : Nat) (buf : List Nat)
    (h0 : startsWith ETVR_HEADER buf = true)
    (hk : startsWith ETVR_HEADER (buf.drop k) = true)
    (huniq : ∀ i, i < buf.length → startsWith ETVR_HEADER (buf.drop i) = true →
      i = 0 ∨ i = k)
    (hklen : k < buf.length) :
    locateHeader sp buf = if 23 * sp < 10 * buf.length then some k else some 0 := by
  rw [locateHeader]
  split
  · refine rfindSub_at hk (fun i hi => ?_)
    by_cases hlt : i < buf.length
    · cases hsw : startsWith ETVR_HEADER (buf.drop i) with
      | true =>
        exfalso
        rcases huniq i hlt hsw with h | h <;> omega
      | false => rfl
    · rw [List.drop_eq_nil_of_le (by omega)]
      rfl
  · exact findSub_zero h0

/-- C5: with two complete back-to-back frames buffered (the header occurring
exactly at their two start offsets) and one byte of slack, a single call
returns the SECOND frame's payload when the accumulator length exceeds
`2.3 × sp_max` — the search starts from the last header occurrence
(`rfind`, skip-ahead) — and the FIRST frame's payload otherwise (`find`). -/
theorem skip_ahead (s : FramerState) (pre1 pre2 : List Nat) (c1 c2 x : Nat)
    (hin : s.incoming = [])
    (hbuf : s.buffer = wireFrame pre1 c1 ++ (wireFrame pre2 c2 ++ [x]))
    (hc1 : c1 = crcByte (pre1 ++ [255, 217]))
    (hc2 : c2 = crcByte (pre2 ++ [255, 217]))
    (huniq : ∀ i, i < s.buffer.length →
      startsWith ETVR_HEADER (s.buffer.drop i) = true →
      i = 0 ∨ i = (wireFrame pre1 c1).length) :
    (23 * s.sp_max < 10 * s.buffer.length →
      (get_next_jpeg_frame s).1 = some (pre2 ++ [255, 217]) ∧
      (get_next_jpeg_frame s).2.buffer = [c2, x]) ∧
    (¬ 23 * s.sp_max < 10 * s.buffer.length →
      (get_next_jpeg_frame s).1 = some (pre1 ++ [255, 217]) ∧
      (get_next_jpeg_frame s).2.buffer = c1 :: (wireFrame pre2 c2 ++ [x])) := by
  have hsr := serial_read_empty s 2048 hin
  have h0 : startsWith ETVR_HEADER s.buffer = true := by rw [hbuf]; rfl
  have hdropk : s.buffer.drop (wireFrame pre1 c1).length = wireFrame pre2 c2 ++ [x] := by
    rw [hbuf]
    exact List.drop_left _ _
  have hk : startsWith ETVR_HEADER (s.buffer.drop (wireFrame pre1 c1).length) = true := by
    rw [hdropk]; rfl
  have hklen : (wireFrame pre1 c1).length < s.buffer.length := by
    rw [hbuf]
    simp <;> omega
  have hloc := locateHeader_pair s.sp_max (wireFrame pre1 c1).length s.buffer
    h0 hk huniq hklen
  have hblen : ETVR_HEADER_LEN ≤ s.buffer.length := by
    rw [hbuf]
    simp [ETVR_HEADER_LEN, wireFrame] <;> omega
  constructor
  · intro hthr
    have hstep : get_next_jpeg_frame s =
        framePastHeader ⟨s.buffer.drop (wireFrame pre1 c1).length, [], s.sp_max⟩ := by
      rw [get_next_jpeg_frame, hsr]
      dsimp only
      rw [if_pos hblen, hloc, if_pos hthr]
    have hshape : wireFrame pre2 c2 ++ [x]
        = 255 :: 160 :: 255 :: 161 :: ((pre2.length + 2) % 256) ::
          ((pre2.length + 2) / 256) :: (pre2 ++ 255 :: 217 :: c2 :: x :: []) := by
      simp [wireFrame]
    have h := framePastHeader_canonical s.sp_max pre2 [] ((pre2.length + 2) % 256)
      ((pre2.length + 2) / 256) c2 x (by omega)
    rw [if_neg (show ¬(_ ∧ ¬(c2 = _)) from fun hcon => hcon.2 hc2)] at h
    rw [hstep, hdropk, hshape, h]
    exact ⟨rfl, rfl⟩
  · intro hthr
    have hstep : get_next_jpeg_frame s =
        framePastHeader ⟨s.buffer, [], s.sp_max⟩ := by
      rw [get_next_jpeg_frame, hsr]
      dsimp only
      rw [if_pos hblen, hloc, if_neg hthr]
      show framePastHeader ⟨s.buffer.drop 0, [], s.sp_max⟩ = _
      rw [List.drop_zero]
    have hshape : wireFrame pre1 c1 ++ (wireFrame pre2 c2 ++ [x])
        = 255 :: 160 :: 255 :: 161 :: ((pre1.length + 2) % 256) ::
          ((pre1.length + 2) / 256) ::
          (pre1 ++ 255 :: 217 :: c1 :: 255 ::
            (160 :: 255 :: 161 :: ((pre2.length + 2) % 256) ::
              ((pre2.length + 2) / 256) :: (pre2 ++ 255 :: 217 :: c2 :: x :: []))) := by
      simp [wireFrame]
    have h := framePastHeader_canonical s.sp_max pre1
      (160 :: 255 :: 161 :: ((pre2.length + 2) % 256) ::
        ((pre2.length + 2) / 256) :: (pre2 ++ 255 :: 217 :: c2 :: x :: []))
      ((pre1.length + 2) % 256) ((pre1.length + 2) / 256) c1 255 (by omega)
    rw [if_neg (show ¬(_ ∧ ¬(c1 = _)) from fun hcon => hcon.2 hc1)] at h
    rw [hstep, hbuf, hshape, h]
    refine ⟨rfl, ?_⟩
    show c1 :: 255 :: _ = c1 :: (wireFrame pre2 c2 ++ [x])
    simp [wireFrame]

/-- C5 witness: two concrete 10-byte frames plus one slack byte; with
`sp_max = 0` the backlog threshold is exceeded and the second payload is
returned, with `sp_max = 2560` it is not and the first payload is
returned. -/
theorem skip_ahead_witness :
    ((get_next_jpeg_frame ⟨wireFrame [1] (crcByte [1, 255, 217]) ++
        (wireFrame [2] (crcByte [2, 255, 217]) ++ [9]), [], 0⟩).1
      = some ([2] ++ [255, 217]) ∧
     (get_next_jpeg_frame ⟨wireFrame [1] (crcByte [1, 255, 217]) ++
        (wireFrame [2] (crcByte [2, 255, 217]) ++ [9]), [], 0⟩).2.buffer
      = [crcByte [2, 255, 217], 9]) ∧
    ((get_next_jpeg_frame ⟨wireFrame [1] (crcByte [1, 255, 217]) ++
        (wireFrame [2] (crcByte [2, 255, 217]) ++ [9]), [], 2560⟩).1
      = some ([1] ++ [255, 217]) ∧
     (get_next_jpeg_frame ⟨wireFrame [1] (crcByte [1, 255, 217]) ++
        (wireFrame [2] (crcByte [2, 255, 217]) ++ [9]), [], 2560⟩).2.buffer
      = crcByte [1, 255, 217] :: (wireFrame [2] (crcByte [2, 255, 217]) ++ [9])) :=
  ⟨(skip_ahead ⟨wireFrame [1] (crcByte [1, 255, 217]) ++
      (wireFrame [2] (crcByte [2, 255, 217]) ++ [9]), [], 0⟩ [1] [2]
      (crcByte [1, 255, 217]) (crcByte [2, 255, 217]) 9
      rfl rfl (by decide) (by decide) (by decide)).1 (by decide),
   (skip_ahead ⟨wireFrame [1] (crcByte [1, 255, 217]) ++
      (wireFrame [2] (crcByte [2, 255, 217]) ++ [9]), [], 2560⟩ [1] [2]
      (crcByte [1, 255, 217]) (crcByte [2, 255, 217]) 9
      rfl rfl (by decide) (by decide) (by decide)).2 (by decide)⟩

/-! ## C9: resolution clamp -/

theorem maxList_le {l : List Nat} {b : Nat} (h : ∀ x ∈ l, x ≤ b) :
    maxList l ≤ b := by
  induction l with
  | nil => exact Nat.zero_le b
  | cons a t ih =>
    have ha : a ≤ b := h a (by simp)
    have ht : maxList t ≤ b := ih (fun x hx => h x (by simp [hx]))
    show max a (maxList t) ≤ b
    omega

/-! ## Binary64 facts for the resolution clamp -/

theorem lg2Fuel_spec (f : Nat) : ∀ n : Nat, 1 ≤ n → n < 2 ^ f →
    2 ^ lg2Fuel f n ≤ n ∧ n < 2 ^ (lg2Fuel f n + 1) := by
  induction f with
  | zero => intro n h1 h2; simp at h2; omega
  | succ f ih =>
    intro n h1 h2
    rw [lg2Fuel]
    by_cases hn : n < 2
    · rw [if_pos hn]; constructor <;> simp <;> omega
    · rw [if_neg hn]
      have hd1 : 1 ≤ n / 2 := by omega
      have hd2 : n / 2 < 2 ^ f := by
        have : 2 ^ (f + 1) = 2 * 2 ^ f := by ring
        omega
      obtain ⟨ha, hb⟩ := ih (n / 2) hd1 hd2
      constructor
      · calc 2 ^ (lg2Fuel f (n / 2) + 1) = 2 * 2 ^ lg2Fuel f (n / 2) := by ring
          _ ≤ 2 * (n / 2) := by omega
          _ ≤ n := by omega
      · calc n ≤ 2 * (n / 2) + 1 := by omega
          _ < 2 * 2 ^ (lg2Fuel f (n / 2) + 1) := by omega
          _ = 2 ^ (lg2Fuel f (n / 2) + 1 + 1) := by ring

theorem lg2_spec (n : Nat) (h1 : 1 ≤ n) (h2 : n < 2 ^ 256) :
    2 ^ lg2 n ≤ n ∧ n < 2 ^ (lg2 n + 1) :=
  lg2Fuel_spec 256 n h1 h2

theorem rhe_ge_div (A B : Nat) : A / B ≤ rhe A B := by
  rw [rhe]; split_ifs <;> omega

theorem rhe_le (A B : Nat) (hB : 0 < B) : 2 * B * rhe A B ≤ 2 * A + B := by
  have hA : B * (A / B) + A % B = A := Nat.div_add_mod A B
  have hrB : A % B < B := Nat.mod_lt _ hB
  rw [rhe]
  generalize A / B = q at *
  generalize A % B = r at *
  split_ifs with h1 h2 h3 <;> nlinarith [hA, hrB]

theorem scaleCore (mx u : Nat) (hmx : 601 ≤ mx) (hmx2 : mx ≤ 2 ^ 50)
    (hA : mx * 2 ^ 52 ≤ 600 * 2 ^ u) (hup : 1200 * 2 ^ u < mx * 2 ^ 54)
    (hu : 53 ≤ u) :
    rhe (600 * 2 ^ u) mx ≠ 2 ^ 53 ∧ 0 < rhe (600 * 2 ^ u) mx ∧
    rhe (600 * 2 ^ u) mx < 2 ^ u ∧
    rhe (600 * 2 ^ u) mx * (mx * 2 ^ 53) ≤ 600 * (2 ^ 53 + 1) * 2 ^ u := by
  have hmxpos : 0 < mx := by omega
  have hrle := rhe_le (600 * 2 ^ u) mx hmxpos
  have e53 : (2:Nat) ^ 53 = 2 * 2 ^ 52 := by norm_num
  have key : rhe (600 * 2 ^ u) mx * (mx * 2 ^ 53) ≤ 600 * (2 ^ 53 + 1) * 2 ^ u := by
    calc rhe (600 * 2 ^ u) mx * (mx * 2 ^ 53)
        = (2 * mx * rhe (600 * 2 ^ u) mx) * 2 ^ 52 := by rw [e53]; ring
      _ ≤ (2 * (600 * 2 ^ u) + mx) * 2 ^ 52 := Nat.mul_le_mul_right _ hrle
      _ = 600 * 2 ^ 53 * 2 ^ u + mx * 2 ^ 52 := by rw [e53]; ring
      _ ≤ 600 * 2 ^ 53 * 2 ^ u + 600 * 2 ^ u := Nat.add_le_add_left hA _
      _ = 600 * (2 ^ 53 + 1) * 2 ^ u := by ring
  refine ⟨?_, ?_, ?_, key⟩
  · intro heq
    rw [heq] at hrle
    have h2 : mx * 2 ^ 54 ≤ 1200 * 2 ^ u + mx := by
      have e54 : (2:Nat) ^ 54 = 2 * 2 ^ 53 := by norm_num
      calc mx * 2 ^ 54 = 2 * mx * 2 ^ 53 := by rw [e54]; ring
        _ ≤ 2 * (600 * 2 ^ u) + mx := hrle
        _ = 1200 * 2 ^ u + mx := by ring
    have hDpos : 0 < mx * 2 ^ 54 - 1200 * 2 ^ u := by omega
    have hDle : mx * 2 ^ 54 - 1200 * 2 ^ u ≤ mx := by omega
    have hdvd1 : 2 ^ 54 ∣ 1200 * 2 ^ u := by
      refine ⟨75 * 2 ^ (u - 50), ?_⟩
      have hspl : u = 50 + (u - 50) := by omega
      conv_lhs => rw [hspl, pow_add]
      ring_nf
    have hdvd2 : (2:Nat) ^ 54 ∣ mx * 2 ^ 54 := dvd_mul_left (2 ^ 54) mx
    have hdvd : (2:Nat) ^ 54 ∣ mx * 2 ^ 54 - 1200 * 2 ^ u := Nat.dvd_sub' hdvd2 hdvd1
    have hle : 2 ^ 54 ≤ mx * 2 ^ 54 - 1200 * 2 ^ u := Nat.le_of_dvd hDpos hdvd
    have hfin : (2:Nat) ^ 54 ≤ 2 ^ 50 := le_trans hle (le_trans hDle hmx2)
    norm_num at hfin
  · have h1 : mx ≤ 600 * 2 ^ u := by
      have : mx ≤ mx * 2 ^ 52 := Nat.le_mul_of_pos_right mx (Nat.pos_pow_of_pos 52 (by norm_num))
      omega
    have h2 : 1 ≤ 600 * 2 ^ u / mx := (Nat.one_le_div_iff hmxpos).mpr h1
    have h3 := rhe_ge_div (600 * 2 ^ u) mx
    omega
  · by_contra hc
    push_neg at hc
    have h1 : 2 ^ u * (mx * 2 ^ 53) ≤ rhe (600 * 2 ^ u) mx * (mx * 2 ^ 53) :=
      Nat.mul_le_mul_right _ hc
    have h2 : (mx * 2 ^ 53) * 2 ^ u ≤ (600 * (2 ^ 53 + 1)) * 2 ^ u := by
      calc (mx * 2 ^ 53) * 2 ^ u = 2 ^ u * (mx * 2 ^ 53) := by ring
        _ ≤ rhe (600 * 2 ^ u) mx * (mx * 2 ^ 53) := h1
        _ ≤ 600 * (2 ^ 53 + 1) * 2 ^ u := key
    have h3 : mx * 2 ^ 53 ≤ 600 * (2 ^ 53 + 1) :=
      Nat.le_of_mul_le_mul_right h2 (Nat.pos_pow_of_pos u (by norm_num))
    have h4 : 601 * 2 ^ 53 ≤ mx * 2 ^ 53 := Nat.mul_le_mul_right _ hmx
    norm_num at h3 h4
    omega

theorem scale_bounds (mx : Nat) (hmx : 601 ≤ mx) (hmx2 : mx ≤ 2 ^ 50) :
    0 < (scaleFloat mx).1 ∧ (scaleFloat mx).1 < 2 ^ (scaleFloat mx).2 ∧
    53 ≤ (scaleFloat mx).2 ∧ (scaleFloat mx).2 ≤ 94 ∧
    (scaleFloat mx).1 * (mx * 2 ^ 53) ≤ 600 * (2 ^ 53 + 1) * 2 ^ (scaleFloat mx).2 := by
  obtain ⟨hl1, hl2⟩ := lg2_spec mx (by omega) (lt_of_le_of_lt hmx2 (by norm_num))
  have hl9 : 9 ≤ lg2 mx := by
    by_contra hc
    push_neg at hc
    have h1 : 2 ^ (lg2 mx + 1) ≤ 2 ^ 9 := Nat.pow_le_pow_right (by norm_num) (by omega)
    have h2 : (2:Nat) ^ 9 = 512 := by norm_num
    omega
  have hl50 : lg2 mx ≤ 50 := by
    by_contra hc
    push_neg at hc
    have h1 : 2 ^ 51 ≤ 2 ^ lg2 mx := Nat.pow_le_pow_right (by norm_num) (by omega)
    have h2 : (2:Nat) ^ 50 < 2 ^ 51 := by norm_num
    omega
  simp only [scaleFloat]
  by_cases hc1 : mx * 512 ≤ 600 * 2 ^ lg2 mx
  · rw [if_pos hc1]
    have hl10 : 10 ≤ lg2 mx := by
      by_contra hc
      push_neg at hc
      have h1 : 2 ^ lg2 mx ≤ 2 ^ 9 := Nat.pow_le_pow_right (by norm_num) (by omega)
      have h2 : (2:Nat) ^ 9 = 512 := by norm_num
      omega
    have hA : mx * 2 ^ 52 ≤ 600 * 2 ^ (43 + lg2 mx) := by
      have e52 : (2:Nat) ^ 52 = 512 * 2 ^ 43 := by norm_num
      calc mx * 2 ^ 52 = mx * 512 * 2 ^ 43 := by rw [e52]; ring
        _ ≤ 600 * 2 ^ lg2 mx * 2 ^ 43 := Nat.mul_le_mul_right _ hc1
        _ = 600 * 2 ^ (43 + lg2 mx) := by rw [pow_add]; ring
    have hup : 1200 * 2 ^ (43 + lg2 mx) < mx * 2 ^ 54 := by
      have h1 : (1200:Nat) * 2 ^ 43 < 2 ^ 54 := by norm_num
      calc 1200 * 2 ^ (43 + lg2 mx) = 1200 * 2 ^ 43 * 2 ^ lg2 mx := by rw [pow_add]; ring
        _ < 2 ^ 54 * 2 ^ lg2 mx :=
            (Nat.mul_lt_mul_right (Nat.pos_pow_of_pos _ (by norm_num))).mpr h1
        _ ≤ 2 ^ 54 * mx := Nat.mul_le_mul_left _ hl1
        _ = mx * 2 ^ 54 := by ring
    have hu53 : 53 ≤ 43 + lg2 mx := by omega
    obtain ⟨hne, hpos, hlt, hle⟩ := scaleCore mx (43 + lg2 mx) hmx hmx2 hA hup hu53
    rw [if_neg hne]
    exact ⟨hpos, hlt, by omega, by omega, hle⟩
  · rw [if_neg hc1]
    push_neg at hc1
    have hA : mx * 2 ^ 52 ≤ 600 * 2 ^ (44 + lg2 mx) := by
      have h1 : mx * 2 ^ 52 ≤ 2 ^ (lg2 mx + 1) * 2 ^ 52 :=
        Nat.mul_le_mul_right _ (by omega)
      have h2 : (2:Nat) ^ (lg2 mx + 1) * 2 ^ 52 = 512 * 2 ^ (44 + lg2 mx) := by
        rw [← pow_add]
        have e : lg2 mx + 1 + 52 = 9 + (44 + lg2 mx) := by omega
        rw [e, pow_add]
        norm_num
      have h3 : (512:Nat) * 2 ^ (44 + lg2 mx) ≤ 600 * 2 ^ (44 + lg2 mx) :=
        Nat.mul_le_mul_right _ (by norm_num)
      omega
    have hup : 1200 * 2 ^ (44 + lg2 mx) < mx * 2 ^ 54 := by
      have h1 : (1200:Nat) * 2 ^ (44 + lg2 mx) = 600 * 2 ^ lg2 mx * 2 ^ 45 := by
        rw [pow_add]
        calc 1200 * (2 ^ 44 * 2 ^ lg2 mx) = 600 * 2 ^ lg2 mx * (2 * 2 ^ 44) := by ring
          _ = 600 * 2 ^ lg2 mx * 2 ^ 45 := by norm_num
      have h2 : (600:Nat) * 2 ^ lg2 mx * 2 ^ 45 < mx * 512 * 2 ^ 45 :=
        (Nat.mul_lt_mul_right (Nat.pos_pow_of_pos _ (by norm_num))).mpr hc1
      have h3 : mx * 512 * 2 ^ 45 = mx * 2 ^ 54 := by rw [mul_assoc]; norm_num
      omega
    have hu53 : 53 ≤ 44 + lg2 mx := by omega
    obtain ⟨hne, hpos, hlt, hle⟩ := scaleCore mx (44 + lg2 mx) hmx hmx2 hA hup hu53
    rw [if_neg hne]
    exact ⟨hpos, hlt, by omega, by omega, hle⟩

theorem mulFloat_le (w s u : Nat) (hwpos : 0 < w) (hw50 : w ≤ 2 ^ 50)
    (hspos : 0 < s) (hsu : s < 2 ^ u) (hu94 : u ≤ 94) :
    (mulFloat w s u).1 * (2 ^ u * 2 ^ 53) ≤ w * s * ((2 ^ 53 + 1) * 2 ^ (mulFloat w s u).2) := by
  have hws : 0 < w * s := Nat.mul_pos hwpos hspos
  have hwsub : w * s < 2 ^ (50 + u) := by
    calc w * s ≤ 2 ^ 50 * s := Nat.mul_le_mul_right _ hw50
      _ < 2 ^ 50 * 2 ^ u := (Nat.mul_lt_mul_left (Nat.pos_pow_of_pos _ (by norm_num))).mpr hsu
      _ = 2 ^ (50 + u) := (pow_add 2 50 u).symm
  have hws256 : w * s < 2 ^ 256 := by
    have h1 : (2:Nat) ^ (50 + u) ≤ 2 ^ 256 := Nat.pow_le_pow_right (by norm_num) (by omega)
    omega
  obtain ⟨hp1, hp2⟩ := lg2_spec (w * s) (by omega) hws256
  have hlp : lg2 (w * s) + 1 ≤ 50 + u := by
    by_contra hcon
    push_neg at hcon
    have h1 : 2 ^ (50 + u) ≤ 2 ^ lg2 (w * s) := Nat.pow_le_pow_right (by norm_num) (by omega)
    omega
  simp only [mulFloat, if_neg (Nat.pos_iff_ne_zero.mp hws)]
  have ht3 : 3 ≤ 52 + u - lg2 (w * s) := by omega
  have htkey : 2 ^ (52 + u) ≤ w * s * 2 ^ (52 + u - lg2 (w * s)) := by
    have e : 52 + u = lg2 (w * s) + (52 + u - lg2 (w * s)) := by omega
    calc (2:Nat) ^ (52 + u) = 2 ^ lg2 (w * s) * 2 ^ (52 + u - lg2 (w * s)) := by
          rw [← pow_add, ← e]
      _ ≤ w * s * 2 ^ (52 + u - lg2 (w * s)) := Nat.mul_le_mul_right _ hp1
  have hrle := rhe_le (w * s * 2 ^ (52 + u - lg2 (w * s))) (2 ^ u)
    (Nat.pos_pow_of_pos _ (by norm_num))
  have e53 : (2:Nat) ^ 53 = 2 * 2 ^ 52 := by norm_num
  have hmain : rhe (w * s * 2 ^ (52 + u - lg2 (w * s))) (2 ^ u) * (2 ^ u * 2 ^ 53) ≤
      w * s * ((2 ^ 53 + 1) * 2 ^ (52 + u - lg2 (w * s))) := by
    have epow : (2:Nat) ^ u * 2 ^ 52 = 2 ^ (52 + u) := by rw [← pow_add]; ring_nf
    calc rhe (w * s * 2 ^ (52 + u - lg2 (w * s))) (2 ^ u) * (2 ^ u * 2 ^ 53)
        = (2 * 2 ^ u * rhe (w * s * 2 ^ (52 + u - lg2 (w * s))) (2 ^ u)) * 2 ^ 52 := by
          rw [e53]; ring
      _ ≤ (2 * (w * s * 2 ^ (52 + u - lg2 (w * s))) + 2 ^ u) * 2 ^ 52 :=
          Nat.mul_le_mul_right _ hrle
      _ = w * s * 2 ^ (52 + u - lg2 (w * s)) * 2 ^ 53 + 2 ^ u * 2 ^ 52 := by
          rw [e53]; ring
      _ ≤ w * s * 2 ^ (52 + u - lg2 (w * s)) * 2 ^ 53 + w * s * 2 ^ (52 + u - lg2 (w * s)) := by
          rw [epow]; omega
      _ = w * s * ((2 ^ 53 + 1) * 2 ^ (52 + u - lg2 (w * s))) := by ring
  by_cases hpm : rhe (w * s * 2 ^ (52 + u - lg2 (w * s))) (2 ^ u) = 2 ^ 53
  · rw [if_pos hpm]
    rw [hpm] at hmain
    have et : 52 + u - lg2 (w * s) = (52 + u - lg2 (w * s) - 1) + 1 := by omega
    have e2 : (2:Nat) ^ (52 + u - lg2 (w * s)) = 2 ^ (52 + u - lg2 (w * s) - 1) * 2 := by
      conv_lhs => rw [et, pow_add]
      norm_num
    have goal2 : 2 ^ 52 * (2 ^ u * 2 ^ 53) * 2 ≤
        w * s * ((2 ^ 53 + 1) * 2 ^ (52 + u - lg2 (w * s) - 1)) * 2 := by
      calc 2 ^ 52 * (2 ^ u * 2 ^ 53) * 2 = 2 ^ 53 * (2 ^ u * 2 ^ 53) := by rw [e53]; ring
        _ ≤ w * s * ((2 ^ 53 + 1) * 2 ^ (52 + u - lg2 (w * s))) := hmain
        _ = w * s * ((2 ^ 53 + 1) * 2 ^ (52 + u - lg2 (w * s) - 1)) * 2 := by
            rw [e2]; ring
    exact Nat.le_of_mul_le_mul_right goal2 (by norm_num)
  · rw [if_neg hpm]
    exact hmain

theorem scaled_dim_le (w mx : Nat) (hw50 : w ≤ 2 ^ 50) (hwmx : w ≤ mx)
    (hmx : 601 ≤ mx) (hmx2 : mx ≤ 2 ^ 50) :
    floorFloat (mulFloat w (scaleFloat mx).1 (scaleFloat mx).2) ≤ w ∧
    floorFloat (mulFloat w (scaleFloat mx).1 (scaleFloat mx).2) ≤ 600 := by
  obtain ⟨hspos, hslt, hu53, hu94, hsb⟩ := scale_bounds mx hmx hmx2
  by_cases hw0 : w = 0
  · subst hw0
    simp [mulFloat, floorFloat]
  · have hwpos : 0 < w := Nat.pos_of_ne_zero hw0
    have hmb := mulFloat_le w (scaleFloat mx).1 (scaleFloat mx).2 hwpos hw50 hspos hslt hu94
    have hXpos : 0 < 2 ^ (mulFloat w (scaleFloat mx).1 (scaleFloat mx).2).2 :=
      Nat.pos_pow_of_pos _ (by norm_num)
    have hUpos : 0 < (2:Nat) ^ (scaleFloat mx).2 := Nat.pos_pow_of_pos _ (by norm_num)
    constructor
    · rw [floorFloat]
      by_contra hcon
      push_neg at hcon
      have hdiv : (w + 1) * 2 ^ (mulFloat w (scaleFloat mx).1 (scaleFloat mx).2).2 ≤
          (mulFloat w (scaleFloat mx).1 (scaleFloat mx).2).1 :=
        (Nat.le_div_iff_mul_le hXpos).mp hcon
      have hc2 : (w + 1) * 2 ^ 53 * (2 ^ (scaleFloat mx).2 *
          2 ^ (mulFloat w (scaleFloat mx).1 (scaleFloat mx).2).2) ≤
          w * (2 ^ 53 + 1) * (2 ^ (scaleFloat mx).2 *
          2 ^ (mulFloat w (scaleFloat mx).1 (scaleFloat mx).2).2) := by
        calc (w + 1) * 2 ^ 53 * (2 ^ (scaleFloat mx).2 *
            2 ^ (mulFloat w (scaleFloat mx).1 (scaleFloat mx).2).2)
            = (w + 1) * 2 ^ (mulFloat w (scaleFloat mx).1 (scaleFloat mx).2).2 *
              (2 ^ (scaleFloat mx).2 * 2 ^ 53) := by ring
          _ ≤ (mulFloat w (scaleFloat mx).1 (scaleFloat mx).2).1 *
              (2 ^ (scaleFloat mx).2 * 2 ^ 53) := Nat.mul_le_mul_right _ hdiv
          _ ≤ w * (scaleFloat mx).1 * ((2 ^ 53 + 1) *
              2 ^ (mulFloat w (scaleFloat mx).1 (scaleFloat mx).2).2) := hmb
          _ ≤ w * 2 ^ (scaleFloat mx).2 * ((2 ^ 53 + 1) *
              2 ^ (mulFloat w (scaleFloat mx).1 (scaleFloat mx).2).2) :=
            Nat.mul_le_mul_right _ (Nat.mul_le_mul_left _ (le_of_lt hslt))
          _ = w * (2 ^ 53 + 1) * (2 ^ (scaleFloat mx).2 *
              2 ^ (mulFloat w (scaleFloat mx).1 (scaleFloat mx).2).2) := by ring
      have hc3 : (w + 1) * 2 ^ 53 ≤ w * (2 ^ 53 + 1) :=
        Nat.le_of_mul_le_mul_right hc2 (Nat.mul_pos hUpos hXpos)
      have hc4 : (2:Nat) ^ 53 ≤ w := by nlinarith [hc3]
      have hw53 : (2:Nat) ^ 50 < 2 ^ 53 := by norm_num
      omega
    · rw [floorFloat]
      by_contra hcon
      push_neg at hcon
      have hdiv : 601 * 2 ^ (mulFloat w (scaleFloat mx).1 (scaleFloat mx).2).2 ≤
          (mulFloat w (scaleFloat mx).1 (scaleFloat mx).2).1 :=
        (Nat.le_div_iff_mul_le hXpos).mp hcon
      have hwle : w * (scaleFloat mx).1 * (mx * 2 ^ 53) ≤
          mx * (600 * (2 ^ 53 + 1) * 2 ^ (scaleFloat mx).2) := by
        calc w * (scaleFloat mx).1 * (mx * 2 ^ 53)
            = w * ((scaleFloat mx).1 * (mx * 2 ^ 53)) := by ring
          _ ≤ w * (600 * (2 ^ 53 + 1) * 2 ^ (scaleFloat mx).2) :=
            Nat.mul_le_mul_left _ hsb
          _ ≤ mx * (600 * (2 ^ 53 + 1) * 2 ^ (scaleFloat mx).2) :=
            Nat.mul_le_mul_right _ hwmx
      have hbig : 601 * 2 ^ (mulFloat w (scaleFloat mx).1 (scaleFloat mx).2).2 *
          (2 ^ (scaleFloat mx).2 * 2 ^ 53) * (mx * 2 ^ 53) ≤
          mx * (600 * (2 ^ 53 + 1) * 2 ^ (scaleFloat mx).2) * ((2 ^ 53 + 1) *
          2 ^ (mulFloat w (scaleFloat mx).1 (scaleFloat mx).2).2) := by
        calc 601 * 2 ^ (mulFloat w (scaleFloat mx).1 (scaleFloat mx).2).2 *
            (2 ^ (scaleFloat mx).2 * 2 ^ 53) * (mx * 2 ^ 53)
            ≤ (mulFloat w (scaleFloat mx).1 (scaleFloat mx).2).1 *
              (2 ^ (scaleFloat mx).2 * 2 ^ 53) * (mx * 2 ^ 53) :=
            Nat.mul_le_mul_right _ (Nat.mul_le_mul_right _ hdiv)
          _ ≤ w * (scaleFloat mx).1 * ((2 ^ 53 + 1) *
              2 ^ (mulFloat w (scaleFloat mx).1 (scaleFloat mx).2).2) * (mx * 2 ^ 53) :=
            Nat.mul_le_mul_right _ hmb
          _ = w * (scaleFloat mx).1 * (mx * 2 ^ 53) * ((2 ^ 53 + 1) *
              2 ^ (mulFloat w (scaleFloat mx).1 (scaleFloat mx).2).2) := by ring
          _ ≤ mx * (600 * (2 ^ 53 + 1) * 2 ^ (scaleFloat mx).2) * ((2 ^ 53 + 1) *
              2 ^ (mulFloat w (scaleFloat mx).1 (scaleFloat mx).2).2) :=
            Nat.mul_le_mul_right _ hwle
      have hmxpos : 0 < mx := by omega
      have hc4 : 601 * (2 ^ 53 * 2 ^ 53) *
          (mx * (2 ^ (scaleFloat mx).2 *
            2 ^ (mulFloat w (scaleFloat mx).1 (scaleFloat mx).2).2)) ≤
          600 * (2 ^ 53 + 1) * (2 ^ 53 + 1) *
          (mx * (2 ^ (scaleFloat mx).2 *
            2 ^ (mulFloat w (scaleFloat mx).1 (scaleFloat mx).2).2)) := by
        calc 601 * (2 ^ 53 * 2 ^ 53) *
            (mx * (2 ^ (scaleFloat mx).2 *
              2 ^ (mulFloat w (scaleFloat mx).1 (scaleFloat mx).2).2))
            = 601 * 2 ^ (mulFloat w (scaleFloat mx).1 (scaleFloat mx).2).2 *
              (2 ^ (scaleFloat mx).2 * 2 ^ 53) * (mx * 2 ^ 53) := by ring
          _ ≤ mx * (600 * (2 ^ 53 + 1) * 2 ^ (scaleFloat mx).2) * ((2 ^ 53 + 1) *
              2 ^ (mulFloat w (scaleFloat mx).1 (scaleFloat mx).2).2) := hbig
          _ = 600 * (2 ^ 53 + 1) * (2 ^ 53 + 1) *
              (mx * (2 ^ (scaleFloat mx).2 *
                2 ^ (mulFloat w (scaleFloat mx).1 (scaleFloat mx).2).2)) := by ring
      have hc5 : 601 * (2 ^ 53 * 2 ^ 53) ≤ 600 * (2 ^ 53 + 1) * (2 ^ 53 + 1) :=
        Nat.le_of_mul_le_mul_right hc4
          (Nat.mul_pos hmxpos (Nat.mul_pos hUpos hXpos))
      norm_num at hc5

/-- C9 counterexample: with the scale factor computed in binary64, the larger
output dimension can fall short of 600 — a 1109×1109 image is clamped to
599×599, not 600×600; and a 744×155 image is clamped to 600×124 where exact
rational scaling of the smaller dimension would give 125. -/
theorem clamp_larger_dim_misses_600 :
    clamp_max_res [1109, 1109, 3] = [599, 599, 3] ∧
    clamp_max_res [744, 155, 3] = [600, 124, 3] := by
  decide

/-- C9: `clamp_max_res` leaves the shape unchanged when the larger of its
two spatial dimensions is at most `MAX_RESOLUTION` (600).  Otherwise it
multiplies both spatial dimensions by the binary64 quotient `600 / max` and
truncates: the trailing shape entries (the channel count) are untouched,
neither spatial dimension grows, and both outputs are at most 600 — but
because the quotient is rounded to 53 bits before the multiply, the larger
output need not equal 600 exactly.  Trailing entries are assumed not to
exceed the spatial maximum and the dimensions to fit in 2^50, as holds for
every decoded image. -/
theorem clamp_max_res_spec (h w : Nat) (rest : List Nat)
    (hrest : ∀ x ∈ rest, x ≤ max h w) (hh : h ≤ 2 ^ 50) (hw : w ≤ 2 ^ 50) :
    (max h w ≤ MAX_RESOLUTION → clamp_max_res (h :: w :: rest) = h :: w :: rest) ∧
    (MAX_RESOLUTION < max h w →
      clamp_max_res (h :: w :: rest)
        = floorFloat (mulFloat h (scaleFloat (max h w)).1 (scaleFloat (max h w)).2) ::
          floorFloat (mulFloat w (scaleFloat (max h w)).1 (scaleFloat (max h w)).2) :: rest ∧
      floorFloat (mulFloat h (scaleFloat (max h w)).1 (scaleFloat (max h w)).2) ≤ h ∧
      floorFloat (mulFloat w (scaleFloat (max h w)).1 (scaleFloat (max h w)).2) ≤ w ∧
      floorFloat (mulFloat h (scaleFloat (max h w)).1 (scaleFloat (max h w)).2)
        ≤ MAX_RESOLUTION ∧
      floorFloat (mulFloat w (scaleFloat (max h w)).1 (scaleFloat (max h w)).2)
        ≤ MAX_RESOLUTION) := by
  have hm : maxList (h :: w :: rest) = max h w := by
    have hr := maxList_le hrest
    show max h (max w (maxList rest)) = max h w
    omega
  constructor
  · intro hle
    rw [clamp_max_res, hm, if_neg (by omega)]
  · intro hgt
    have hgt600 : 600 < max h w := hgt
    have hmx601 : 601 ≤ max h w := by omega
    have hmx2 : max h w ≤ 2 ^ 50 := max_le hh hw
    have hhle := scaled_dim_le h (max h w) hh (le_max_left h w) hmx601 hmx2
    have hwle := scaled_dim_le w (max h w) hw (le_max_right h w) hmx601 hmx2
    refine ⟨?_, hhle.1, hwle.1, hhle.2, hwle.2⟩
    rw [clamp_max_res, hm, if_pos hgt]
    rfl

/-- C9 witness: a 1200×600 image becomes 600×300 (shape `(600, 1200, 3)`
maps to `(300, 600, 3)`), and a 400×300 image passes through unchanged. -/
theorem clamp_max_res_spec_witness :
    clamp_max_res [600, 1200, 3] = [300, 600, 3] ∧
    clamp_max_res [300, 400, 3] = [300, 400, 3] :=
  ⟨by
    have hc := ((clamp_max_res_spec 600 1200 [3] (by decide) (by norm_num)
      (by norm_num)).2 (by decide)).1
    rw [hc]
    decide,
   (clamp_max_res_spec 300 400 [3] (by decide) (by norm_num) (by norm_num)).1 (by decide)⟩

/-! ## Run-loop lemmas -/

/-- A serial pull with no connection object is a complete no-op. -/
theorem get_serial_none (sys : CamSys) (env : RunEnv) (sp : Bool)
    (h : sys.serial_connection = none) :
    get_serial_camera_picture sys env sp = (sys, []) := by
  rw [get_serial_camera_picture, h]

/-- `camDel` does not touch the cv2 camera object. -/
theorem camDel_cv2 (sys : CamSys) : (camDel sys).cv2_camera = sys.cv2_camera := by
  rw [camDel]
  cases sys.serial_connection <;> rfl

/-- `serialDiscard` does not touch the cv2 camera object. -/
theorem serialDiscard_cv2 (sys : CamSys) :
    (serialDiscard sys).cv2_camera = sys.cv2_camera := by
  rw [serialDiscard]
  cases sys.serial_connection with
  | none => rfl
  | some c =>
    dsimp only
    split <;> rfl

/-- A serial pull never constructs a cv2 camera and never logs `cv2New` or
`cv2ReadCall`. -/
theorem get_serial_effects (sys : CamSys) (env : RunEnv) (sp : Bool) :
    (get_serial_camera_picture sys env sp).1.cv2_camera = sys.cv2_camera ∧
    RunEv.cv2New ∉ (get_serial_camera_picture sys env sp).2 ∧
    RunEv.cv2ReadCall ∉ (get_serial_camera_picture sys env sp).2 := by
  rw [get_serial_camera_picture]
  cases sys.serial_connection with
  | none => exact ⟨rfl, by simp, by simp⟩
  | some c =>
    dsimp only
    split
    · exact ⟨rfl, by simp, by simp⟩
    · split
      · exact ⟨rfl, by simp, by simp⟩
      · split
        · split
          · split
            · split
              · exact ⟨rfl, by simp, by simp⟩
              · split
                · exact ⟨by rw [serialDiscard_cv2], by simp, by simp⟩
                · exact ⟨by rw [serialDiscard_cv2], by simp, by simp⟩
            · exact ⟨by rw [serialDiscard_cv2], by simp, by simp⟩
          · exact ⟨by rw [serialDiscard_cv2], by simp, by simp⟩
        · exact ⟨rfl, by simp, by simp⟩

/-- A cv2 pull keeps the camera object, logs a read attempt whenever a
camera object exists, never logs `cv2New`, and pushes nothing when
`should_push` is false. -/
theorem get_cv2_effects (sys : CamSys) (env : RunEnv) (sp : Bool) :
    (get_cv2_camera_picture sys env sp).1.cv2_camera = sys.cv2_camera ∧
    RunEv.cv2New ∉ (get_cv2_camera_picture sys env sp).2 ∧
    (∀ cam, sys.cv2_camera = some cam →
      RunEv.cv2ReadCall ∈ (get_cv2_camera_picture sys env sp).2) ∧
    (sp = false → RunEv.pushed ∉ (get_cv2_camera_picture sys env sp).2) := by
  rw [get_cv2_camera_picture]
  cases hc : sys.cv2_camera with
  | none =>
    refine ⟨rfl, by simp, ?_, by simp⟩
    intro cam hcam
    cases hcam
  | some cam =>
    dsimp only
    split
    · split
      · rename_i hsp
        exact ⟨hc, by simp, fun _ _ => by simp,
          fun hf => absurd hsp (by rw [hf]; simp)⟩
      · exact ⟨hc, by simp, fun _ _ => by simp, fun _ => by simp⟩
    · exact ⟨rfl, by simp, fun _ _ => by simp, fun _ => by simp⟩

/-! ## C7: warm-up frame and the CONNECTED transition -/

/-- C7 counterexample: with a fresh `"COM3"` source, a listed port and a
successful open, and no capture requested this iteration, the run loop
reports `CONNECTED` after the port open alone — no frame was read from any
backend (no `serialPull`, no framer call, no cv2 read), and nothing was
pushed.  The claim says the serial backend does not report `CONNECTED`
merely on a successful port open before any frame pull. -/
theorem serial_connected_on_open_alone :
    (runIter serialFreshSys serialFreshEnv).2.1.camera_status
      = CameraState.CONNECTED ∧
    (runIter serialFreshSys serialFreshEnv).2.2
      = [RunEv.serialOpenCall, RunEv.serialNew] := by
  refine ⟨?_, ?_⟩ <;> decide

/-- C7 (amended): only the cv2 backend has the warm-up discard.  Serial
part: on an iteration that freshly opens a listed serial port, the status
becomes `CONNECTED` immediately, before any frame pull (with no capture
request there is no pull at all, and the log is exactly the open events).
Cv2 part: on an iteration in which the cv2 open branch runs, the pull
happens without waiting for a capture request, the frame read is not
pushed, and the status is `CONNECTED` at the end of the iteration. -/
theorem warm_up_connect (sys : CamSys) (env : RunEnv) (src : List Char)
    (hsrc : sys.capture_source = some src) (hne : src ≠ []) :
    (containsSub comStr src = true →
      sys.serial_connection = none →
      env.cancel_top = false → env.port_listed = true → env.open_ok = true →
      env.capture_req = false →
      runIter sys env =
        (false,
         { sys with current_capture_source := some (SourceVal.str src),
                    serial_connection := some ⟨true, src, env.open_incoming⟩,
                    camera_status := CameraState.CONNECTED },
         [RunEv.serialOpenCall, RunEv.serialNew])) ∧
    (containsSub comStr src = false → containsSub ttyStr src = false →
      sys.cv2_camera = none →
      env.cancel_top = false → env.cancel_wait = false →
      (runIter sys env).2.1.camera_status = CameraState.CONNECTED ∧
      (runIter sys env).2.2 = [RunEv.cv2New, RunEv.cv2Pull, RunEv.cv2ReadCall]) := by
  constructor
  · intro hcom hser hct hpl hok hreq
    rw [runIter, hct]
    simp only [Bool.false_eq_true, if_false, hsrc]
    rw [if_neg hne, if_pos hcom, if_pos (Or.inl (show _ = none from hser))]
    have hstart : start_serial_connection
        { sys with capture_source := some src,
                   current_capture_source := some (SourceVal.str src) } env src =
        ({ sys with capture_source := some src,
                    current_capture_source := some (SourceVal.str src),
                    serial_connection := some ⟨true, src, env.open_incoming⟩,
                    camera_status := CameraState.CONNECTED },
         [RunEv.serialOpenCall, RunEv.serialNew]) := by
      rw [start_serial_connection]
      dsimp only
      rw [hser]
      rw [start_serial_open, if_neg (by rw [hpl]; simp), if_pos hok]
    simp only [hstart]
    rw [runTail, if_pos (by rw [hreq]; rfl)]
  · intro hcom htty hcam hct hcw
    have hlog : ∀ t : CamSys, t.cv2_camera = some (⟨env.cv2_open_ok⟩ : Cv2Cam) →
        (get_cv2_camera_picture t env false).2 = [RunEv.cv2ReadCall] := by
      intro t ht
      rw [get_cv2_camera_picture, ht]
      dsimp only
      split
      · rfl
      · rfl
    rw [runIter, if_neg (by rw [hct]; simp)]
    simp only [hsrc]
    rw [if_neg hne, if_neg (by rw [hcom]; simp)]
    rw [if_pos (Or.inl (show cv2NotOpen sys.cv2_camera = true by rw [hcam]; rfl))]
    rw [if_neg (by rw [hcw]; simp)]
    rw [runTail, if_neg (by simp)]
    dsimp only
    rw [if_neg (by rw [hcom, htty]; simp)]
    rw [if_neg (by simp : ¬ (false : Bool) = true)]
    refine ⟨rfl, ?_⟩
    rw [hlog _ (by rw [camDel_cv2])]
    rfl

/-- C7 witness: a fresh serial connection reports `CONNECTED` with only the
open events logged; a fresh cv2 connection pulls its warm-up frame without
pushing it and ends the iteration `CONNECTED`. -/
theorem warm_up_connect_witness :
    runIter serialFreshSys serialFreshEnv =
      (false,
       { serialFreshSys with
          capture_source := some ['C', 'O', 'M', '3'],
          current_capture_source := some (SourceVal.str ['C', 'O', 'M', '3']),
          serial_connection := some ⟨true, ['C', 'O', 'M', '3'], []⟩,
          camera_status := CameraState.CONNECTED },
       [RunEv.serialOpenCall, RunEv.serialNew]) ∧
    ((runIter cv2FreshSys resChangeEnv).2.1.camera_status = CameraState.CONNECTED ∧
     (runIter cv2FreshSys resChangeEnv).2.2
       = [RunEv.cv2New, RunEv.cv2Pull, RunEv.cv2ReadCall]) :=
  ⟨(warm_up_connect serialFreshSys serialFreshEnv ['C', 'O', 'M', '3'] rfl
      (by decide)).1 (by decide) rfl rfl rfl rfl rfl,
   (warm_up_connect cv2FreshSys resChangeEnv ['r', 't', 's', 'p'] rfl
      (by decide)).2 (by decide) (by decide) rfl rfl rfl⟩

/-! ## C8: what forces a reconnect -/

/-- C8 counterexample: a camera streaming from a healthy open cv2 source
whose configured resolution hint (999) differs from whatever the connection
was opened with.  The claim says the next iteration must tear the
connection down and reopen before pulling another frame; instead the
iteration opens nothing (`cv2New` is never logged), keeps the same camera
object, and pulls and pushes a frame through it. -/
theorem resolution_change_ignored :
    RunEv.cv2New ∉ (runIter resChangeSys resChangeEnv).2.2 ∧
    RunEv.cv2ReadCall ∈ (runIter resChangeSys resChangeEnv).2.2 ∧
    RunEv.pushed ∈ (runIter resChangeSys resChangeEnv).2.2 ∧
    (runIter resChangeSys resChangeEnv).2.1.cv2_camera = resChangeSys.cv2_camera := by
  refine ⟨?_, ?_, ?_, ?_⟩ <;> decide

/-- C8 (amended): for a cv2 source, only a changed source identifier (or a
missing / unopened camera or a `DISCONNECTED` status) invalidates the
connection.  While the camera is open, the status healthy and the source
identifier unchanged, NO configuration field — resolution, frame rate, or
backend flag, all universally quantified inside `sys` here — causes a
reconnect: no `cv2New` is logged, the camera object is kept, and a frame is
pulled through it whenever one is requested.  When the source identifier
differs from the one the connection was opened for, the iteration starts
with a reopen (`cv2New` is the first event) before any pull. -/
theorem reconnect_only_on_source_change (sys : CamSys) (env : RunEnv)
    (src : List Char) (cam : Cv2Cam)
    (hsrc : sys.capture_source = some src) (hne : src ≠ [])
    (hcom : containsSub comStr src = false) :
    (sys.cv2_camera = some cam → cam.opened = true →
      sys.camera_status ≠ CameraState.DISCONNECTED →
      sys.current_capture_source = some (SourceVal.str src) →
      RunEv.cv2New ∉ (runIter sys env).2.2 ∧
      (runIter sys env).2.1.cv2_camera = sys.cv2_camera) ∧
    (sys.cv2_camera = some cam → cam.opened = true →
      sys.camera_status ≠ CameraState.DISCONNECTED →
      sys.current_capture_source = some (SourceVal.str src) →
      env.cancel_top = false → env.capture_req = true →
      containsSub ttyStr src = false →
      RunEv.cv2ReadCall ∈ (runIter sys env).2.2) ∧
    (¬ sys.current_capture_source = some (SourceVal.str src) →
      env.cancel_top = false → env.cancel_wait = false →
      ∃ t, (runIter sys env).2.2 = RunEv.cv2New :: t) := by
  have hnore : ∀ (hcam : sys.cv2_camera = some cam), cam.opened = true →
      sys.camera_status ≠ CameraState.DISCONNECTED →
      sys.current_capture_source = some (SourceVal.str src) →
      ¬(cv2NotOpen sys.cv2_camera = true
        ∨ sys.camera_status = CameraState.DISCONNECTED
        ∨ ¬ sys.current_capture_source = some (SourceVal.str src)) := by
    intro hcam hop hstat hcur h
    rcases h with h | h | h
    · rw [hcam] at h
      simp [cv2NotOpen, hop] at h
    · exact hstat h
    · exact h hcur
  refine ⟨?_, ?_, ?_⟩
  · intro hcam hop hstat hcur
    cases hct : env.cancel_top with
    | true =>
      rw [runIter, if_pos hct]
      exact ⟨by simp, rfl⟩
    | false =>
      rw [runIter, if_neg (by rw [hct]; simp)]
      simp only [hsrc]
      rw [if_neg hne, if_neg (by rw [hcom]; simp)]
      rw [if_neg (hnore hcam hop hstat hcur)]
      rw [runTail]
      cases hreq : env.capture_req with
      | false =>
        rw [if_pos (by simp)]
        exact ⟨by simp, rfl⟩
      | true =>
        rw [if_neg (by simp)]
        simp only [hsrc]
        cases htty : containsSub ttyStr src with
        | true =>
          rw [if_pos (by rw [hcom]; rfl)]
          dsimp only
          rw [if_pos (by trivial)]
          have hs := (get_serial_effects sys env true).2.1
          exact ⟨by simp [List.mem_append, hs], (get_serial_effects sys env true).1⟩
        | false =>
          rw [if_neg (by rw [hcom]; simp)]
          dsimp only
          rw [if_pos (by trivial)]
          have heff := get_cv2_effects (camDel sys) env true
          refine ⟨by simp [List.mem_append, heff.2.1], ?_⟩
          rw [heff.1, camDel_cv2]
  · intro hcam hop hstat hcur hct hreq htty
    rw [runIter, if_neg (by rw [hct]; simp)]
    simp only [hsrc]
    rw [if_neg hne, if_neg (by rw [hcom]; simp)]
    rw [if_neg (hnore hcam hop hstat hcur)]
    rw [runTail, if_neg (by rw [hreq]; simp)]
    simp only [hsrc]
    rw [if_neg (by rw [hcom, htty]; simp)]
    dsimp only
    have hread := (get_cv2_effects (camDel sys) env true).2.2.1 cam
      (by rw [camDel_cv2, hcam])
    exact List.mem_append_right _ hread
  · intro hcur hct hcw
    rw [runIter, if_neg (by rw [hct]; simp)]
    simp only [hsrc]
    rw [if_neg hne, if_neg (by rw [hcom]; simp)]
    rw [if_pos (Or.inr (Or.inr hcur))]
    rw [if_neg (by rw [hcw]; simp)]
    rw [runTail, if_neg (by simp)]
    dsimp only
    cases htty : containsSub ttyStr src with
    | true =>
      rw [if_pos (by rw [hcom]; rfl)]
      exact ⟨_, rfl⟩
    | false =>
      rw [if_neg (by rw [hcom]; simp)]
      exact ⟨_, rfl⟩

/-- C8 witness: with a healthy open camera and an unchanged source, a frame
is pulled with no reopen; with a changed source identifier the reopen is
the iteration's first event. -/
theorem reconnect_only_on_source_change_witness :
    (RunEv.cv2New ∉ (runIter resChangeSys resChangeEnv).2.2 ∧
     (runIter resChangeSys resChangeEnv).2.1.cv2_camera = resChangeSys.cv2_camera) ∧
    RunEv.cv2ReadCall ∈ (runIter resChangeSys resChangeEnv).2.2 ∧
    (∃ t, (runIter sourceChangedSys resChangeEnv).2.2 = RunEv.cv2New :: t) :=
  ⟨(reconnect_only_on_source_change resChangeSys resChangeEnv
      ['r', 't', 's', 'p'] ⟨true⟩ rfl (by decide) (by decide)).1
      rfl rfl (by decide) rfl,
   (reconnect_only_on_source_change resChangeSys resChangeEnv
      ['r', 't', 's', 'p'] ⟨true⟩ rfl (by decide) (by decide)).2.1
      rfl rfl (by decide) rfl rfl rfl (by decide),
   (reconnect_only_on_source_change sourceChangedSys resChangeEnv
      ['r', 't', 's', 'p'] ⟨true⟩ rfl (by decide) (by decide)).2.2
      (by decide) rfl rfl⟩

/-! ## C10: `/dev/tty` sources are routed serially but never opened -/

/-- C10: for a configured source containing `"/dev/tty"` but not `"COM"`
and no serial connection object, an iteration of the run loop never calls
`start_serial_connection` (no open events), leaves `serial_connection` as
`None`, performs no framer call, push, or cv2 read, and — in a normal
iteration with a capture request — routes the pull attempt to the serial
path (`serialPull`), where (final conjunct) a pull with no connection
object returns immediately with nothing changed. -/
theorem tty_source_serial_noop (sys : CamSys) (env : RunEnv) (src : List Char)
    (hsrc : sys.capture_source = some src) (hne : src ≠ [])
    (htty : containsSub ttyStr src = true) (hcom : containsSub comStr src = false)
    (hser : sys.serial_connection = none) :
    (RunEv.serialOpenCall ∉ (runIter sys env).2.2 ∧
     RunEv.serialNew ∉ (runIter sys env).2.2 ∧
     (runIter sys env).2.1.serial_connection = none) ∧
    (RunEv.framerCall ∉ (runIter sys env).2.2 ∧
     RunEv.pushed ∉ (runIter sys env).2.2 ∧
     RunEv.cv2ReadCall ∉ (runIter sys env).2.2) ∧
    (env.cancel_top = false → env.cancel_wait = false → env.capture_req = true →
      RunEv.serialPull ∈ (runIter sys env).2.2) ∧
    (∀ (sys2 : CamSys) (env2 : RunEnv) (sp : Bool),
      sys2.serial_connection = none →
      get_serial_camera_picture sys2 env2 sp = (sys2, [])) := by
  cases hct : env.cancel_top with
  | true =>
    rw [runIter, if_pos hct]
    exact ⟨⟨by simp, by simp, hser⟩, ⟨by simp, by simp, by simp⟩,
      fun hf => Bool.noConfusion hf,
      fun sys2 env2 sp h => get_serial_none sys2 env2 sp h⟩
  | false =>
    rw [runIter, if_neg (by rw [hct]; simp)]
    simp only [hsrc]
    rw [if_neg hne, if_neg (by rw [hcom]; simp)]
    by_cases hre : cv2NotOpen sys.cv2_camera = true
        ∨ sys.camera_status = CameraState.DISCONNECTED
        ∨ ¬ sys.current_capture_source = some (SourceVal.str src)
    · rw [if_pos hre]
      cases hcw : env.cancel_wait with
      | true =>
        rw [if_pos rfl]
        exact ⟨⟨by simp, by simp, hser⟩, ⟨by simp, by simp, by simp⟩,
          fun _ hf => Bool.noConfusion hf,
          fun sys2 env2 sp h => get_serial_none sys2 env2 sp h⟩
      | false =>
        rw [if_neg (by simp)]
        rw [runTail, if_neg (by simp)]
        dsimp only
        rw [if_pos (by rw [hcom, htty]; rfl)]
        rw [get_serial_none
          { sys with capture_source := some src,
                     current_capture_source := some (if src ∈ sys.camera_list
                       then SourceVal.idx env.camera_index else SourceVal.str src),
                     cv2_camera := some ⟨env.cv2_open_ok⟩ } env false hser]
        rw [if_neg (by simp : ¬ (false : Bool) = true)]
        exact ⟨⟨by simp, by simp, hser⟩, ⟨by simp, by simp, by simp⟩,
          fun _ _ _ => by simp,
          fun sys2 env2 sp h => get_serial_none sys2 env2 sp h⟩
    · rw [if_neg hre]
      rw [runTail]
      cases hreq : env.capture_req with
      | false =>
        rw [if_pos (by simp)]
        exact ⟨⟨by simp, by simp, hser⟩, ⟨by simp, by simp, by simp⟩,
          fun _ _ hf => Bool.noConfusion hf,
          fun sys2 env2 sp h => get_serial_none sys2 env2 sp h⟩
      | true =>
        rw [if_neg (by simp)]
        simp only [hsrc]
        rw [if_pos (by rw [hcom, htty]; rfl)]
        rw [get_serial_none sys env true hser]
        rw [if_pos (by trivial)]
        exact ⟨⟨by simp, by simp, hser⟩, ⟨by simp, by simp, by simp⟩,
          fun _ _ _ => by simp,
          fun sys2 env2 sp h => get_serial_none sys2 env2 sp h⟩

/-- C10 witness: the `"/dev/ttyACM0"` source with a capture request
pending. -/
theorem tty_source_serial_noop_witness :
    (RunEv.serialOpenCall ∉ (runIter ttySys resChangeEnv).2.2 ∧
     RunEv.serialNew ∉ (runIter ttySys resChangeEnv).2.2 ∧
     (runIter ttySys resChangeEnv).2.1.serial_connection = none) ∧
    (RunEv.framerCall ∉ (runIter ttySys resChangeEnv).2.2 ∧
     RunEv.pushed ∉ (runIter ttySys resChangeEnv).2.2 ∧
     RunEv.cv2ReadCall ∉ (runIter ttySys resChangeEnv).2.2) ∧
    RunEv.serialPull ∈ (runIter ttySys resChangeEnv).2.2 ∧
    get_serial_camera_picture ttySys resChangeEnv true = (ttySys, []) := by
  have h := tty_source_serial_noop ttySys resChangeEnv
    ['/', 'd', 'e', 'v', '/', 't', 't', 'y', 'A', 'C', 'M', '0']
    rfl (by decide) (by decide) (by decide) rfl
  exact ⟨h.1, h.2.1, h.2.2.1 rfl rfl rfl, h.2.2.2 ttySys resChangeEnv true rfl⟩

end Babble
